import Mathlib

/-!
# lifeEngine: rendering core

A shallow embedding of the parts of the engine sources that the specification
talks about (`Render/Material.h`, `RHI/BaseRHI.h`, `Actors/Actor.cpp`,
`Render/VertexFactory/WorldGridVertexFactory.cpp`,
`System/EditorConstraints.cpp`), followed by theorems about them.

Conventions of the embedding

* `uint32` values are natural numbers, reduced modulo `2 ^ 32` where the C++
  arithmetic could leave the range.
* A pointer or a reference-counted reference is an `Option`: `none` is
  `nullptr`.
* A `check( c )` whose condition is false ends the program; an operation that
  contains a `check` returns an `Option` state and `none` is that fatal stop.
* A `float` is carried as its 32-bit pattern; no arithmetic is done on it.
* `std::unordered_map` is an association list in which a key is looked up at
  its first entry; `operator[]` followed by assignment overwrites that entry or
  appends a new one.
-/

namespace LifeEngine

/-! ## Basic types -/

/-- Number of values of a `uint32`. -/
def UINT32_RANGE : Nat := 2 ^ 32

/-- Bitwise complement of a value converted to `uint32` (`~x`). -/
def complement32 (x : Nat) : Nat := UINT32_RANGE - 1 - x % UINT32_RANGE

/-- Bit pattern of a C++ `float`. -/
abbrev FloatBits := Nat

/-! ## std::unordered_map -/

namespace UnorderedMap

/-- Lookup of a key (`find`): the value of the first entry under that key. -/
def find {κ ν : Type} [DecidableEq κ] : List (κ × ν) → κ → Option ν
  | [], _ => none
  | (k', v') :: rest, k => if k' = k then some v' else find rest k

/-- The statement `map[ k ] = v`: overwrite the entry of `k`, or add one. -/
def assign {κ ν : Type} [DecidableEq κ] : List (κ × ν) → κ → ν → List (κ × ν)
  | [], k, v => [(k, v)]
  | (k', v') :: rest, k, v =>
      if k' = k then (k, v) :: rest else (k', v') :: assign rest k v

/-- Number of entries (`size`). -/
def size {κ ν : Type} (m : List (κ × ν)) : Nat := m.length

/-- Membership of a key (`find( k ) != end()`). -/
def contains {κ ν : Type} [DecidableEq κ] (m : List (κ × ν)) (k : κ) : Bool :=
  (find m k).isSome

end UnorderedMap

/-! ## Render/Material.h -/

/-- Flags usage material (`enum EMaterialUsage`): material not used on the all meshes. -/
def MU_None : Nat := 0

/-- Flags usage material (`enum EMaterialUsage`): material used on the static meshes. -/
def MU_StaticMesh : Nat := 1 <<< 0

/-- Flags usage material (`enum EMaterialUsage`): material used on all type meshes. -/
def MU_AllMeshes : Nat := MU_StaticMesh

/-- Modelled from the spec: the class `FShaderMetaType` is declared outside the
given sources. The meta-descriptor of one logical shader; `SetShader` reads only
its frequency (`GetFrequency()`, an `EShaderFrequency` taken as its integer
value) and stores its address, for which the `name` stands. -/
structure FShaderMetaType where
  name : String
  frequency : Nat
deriving DecidableEq, Repr

/-- Class `FShader` of `Render/Shaders/Shader.h`: the private members read by
the accessors `GetName`, `GetFrequency`, `GetVertexFactoryHash`,
`GetNumInstructions` and `Get*Shader`. -/
structure FShader where
  name : String
  frequency : Nat
  vertexFactoryHash : Nat
  numInstructions : Nat
  vertexShader : Option Nat
  hullShader : Option Nat
  domainShader : Option Nat
  geometryShader : Option Nat
  pixelShader : Option Nat
deriving DecidableEq, Repr

/-- Reference to `FShader` (`TRefCountPtr< class FShader >`). -/
abbrev FShaderRef := Option FShader

/-- Reference to `FTexture2D`, by address. -/
abbrev FTexture2DRef := Option Nat

/-- Private members of class `FMaterial`. The number `N` is the enumerator
`SF_NumDrawFrequencies`, the length of the array `shadersType`; its declaration
(`RHI/TypesRHI.h`) is outside the given sources. -/
structure FMaterial (N : Nat) where
  isNeedUpdateShaderMap : Bool
  isTwoSided : Bool
  isWireframe : Bool
  usage : Nat
  shadersType : Fin N → Option FShaderMetaType
  shaderMap : List (Nat × List FShaderRef)
  scalarParameters : List (String × FloatBits)
  textureParameters : List (String × FTexture2DRef)

namespace FMaterial

variable {N : Nat}

/-- Method `FMaterial::SetShader`. -/
def SetShader (m : FMaterial N) (InShaderMetaType : FShaderMetaType) : Option (FMaterial N) :=
  if h : InShaderMetaType.frequency < N then
    some { m with
      shadersType := Function.update m.shadersType ⟨InShaderMetaType.frequency, h⟩
        (some InShaderMetaType)
      isNeedUpdateShaderMap := true }
  else
    none

/-- Method `FMaterial::SetScalarParameterValue`. -/
def SetScalarParameterValue (m : FMaterial N) (InParameterName : String) (InValue : FloatBits) :
    FMaterial N :=
  { m with scalarParameters := UnorderedMap.assign m.scalarParameters InParameterName InValue }

/-- Method `FMaterial::SetTextureParameterValue`. -/
def SetTextureParameterValue (m : FMaterial N) (InParameterName : String)
    (InValue : FTexture2DRef) : FMaterial N :=
  { m with textureParameters := UnorderedMap.assign m.textureParameters InParameterName InValue }

/-- Method `FMaterial::SetTwoSided`. -/
def SetTwoSided (m : FMaterial N) (InIsTwoSided : Bool) : FMaterial N :=
  { m with isTwoSided := InIsTwoSided }

/-- Method `FMaterial::SetWireframe`. -/
def SetWireframe (m : FMaterial N) (InIsWireframe : Bool) : FMaterial N :=
  { m with isWireframe := InIsWireframe }

/-- Method `FMaterial::UsageOnStaticMesh`. The operand `~MU_StaticMesh` is the
complement of an `int` converted to `uint32`. -/
def UsageOnStaticMesh (m : FMaterial N) (InIsUseOnStaticMeshes : Bool) : FMaterial N :=
  if InIsUseOnStaticMeshes then
    { m with
      usage := (m.usage ||| MU_StaticMesh) % UINT32_RANGE
      isNeedUpdateShaderMap := true }
  else
    { m with
      usage := (m.usage &&& complement32 MU_StaticMesh) % UINT32_RANGE
      isNeedUpdateShaderMap := true }

/-- Method `FMaterial::SetUsageFlags`. -/
def SetUsageFlags (m : FMaterial N) (InUsageFlags : Nat) : FMaterial N :=
  { m with
    usage := InUsageFlags
    isNeedUpdateShaderMap := true }

/-- Method `FMaterial::GetUsageFlags`. -/
def GetUsageFlags (m : FMaterial N) : Nat := m.usage

/-- Method `FMaterial::IsTwoSided`. -/
def IsTwoSided (m : FMaterial N) : Bool := m.isTwoSided

/-- Method `FMaterial::IsWireframe`. -/
def IsWireframe (m : FMaterial N) : Bool := m.isWireframe

end FMaterial

/-! ### The shader-map cache (`FMaterial::GetShader`, `FMaterial::CacheShaderMap`)

`Material.h` declares `GetShader`, `CacheShaderMap` and `GetMeshShaders`; their
bodies are outside the given sources and are taken from section 4.3 of the
specification. -/

/-- Modelled from the spec: the two external collaborators of `CacheShaderMap`
(section 6), which are outside the given sources. `liveVertexFactories usage`
enumerates the hashes of the live vertex factories compatible with `usage`;
`findInstance` is the shader-instance registry keyed by
`(shaderType, vertexFactoryHash)`. -/
structure FShaderRegistries where
  liveVertexFactories : Nat → List Nat
  findInstance : FShaderMetaType → Nat → FShaderRef

/-- Modelled from the spec: the list stored under one vertex-factory hash by
`CacheShaderMap` (body missing): one Shader Object per populated
`shadersType[frequency]` slot, resolved through the shader-instance registry. -/
def resolveMeshShaders {N : Nat} (R : FShaderRegistries)
    (shadersType : Fin N → Option FShaderMetaType) (InVertexFactoryHash : Nat) :
    List FShaderRef :=
  (List.finRange N).filterMap fun f =>
    (shadersType f).map fun T => R.findInstance T InVertexFactoryHash

/-- Modelled from the spec: step 3 of `GetShader` (body missing): within the
resolved list, scan for the entry whose frequency matches; return it or null. -/
def findShaderOfFrequency : List FShaderRef → Nat → FShaderRef
  | [], _ => none
  | none :: rest, f => findShaderOfFrequency rest f
  | some s :: rest, f => if s.frequency = f then some s else findShaderOfFrequency rest f

/-- Modelled from the spec: what `GetShader` has to answer under a given
configuration `(shadersType, usage)` (section 8, dirty-flag correctness): the
shader of the asked frequency among those resolved for the asked layout, when
that layout is in use under `usage`, and null otherwise. The cache and the dirty
flag do not occur in it. -/
def ResolveShader {N : Nat} (R : FShaderRegistries)
    (shadersType : Fin N → Option FShaderMetaType) (usage : Nat)
    (InVertexFactoryHash InShaderFrequency : Nat) : FShaderRef :=
  if InVertexFactoryHash ∈ R.liveVertexFactories usage then
    findShaderOfFrequency (resolveMeshShaders R shadersType InVertexFactoryHash) InShaderFrequency
  else
    none

namespace FMaterial

variable {N : Nat}

/-- Modelled from the spec: `FMaterial::GetMeshShaders` (body missing), the
array of shader instances for one mesh type. -/
def GetMeshShaders (R : FShaderRegistries) (m : FMaterial N) (InVertexFactoryHash : Nat) :
    List FShaderRef :=
  resolveMeshShaders R m.shadersType InVertexFactoryHash

/-- Modelled from the spec: `FMaterial::CacheShaderMap` (body missing). The
previous map is discarded; for each vertex-factory hash in use under `usage` the
resolved list is stored under that hash. -/
def CacheShaderMap (R : FShaderRegistries) (m : FMaterial N) : FMaterial N :=
  { m with
    shaderMap := (R.liveVertexFactories m.usage).foldl
      (fun acc h => UnorderedMap.assign acc h (m.GetMeshShaders R h)) [] }

/-- Modelled from the spec: `FMaterial::GetShader` (body missing), steps 1 to 3
of section 4.3. Returns the shader and the Material after the call. -/
def GetShader (R : FShaderRegistries) (m : FMaterial N)
    (InVertexFactoryHash InShaderFrequency : Nat) : FShaderRef × FMaterial N :=
  let m1 : FMaterial N :=
    if m.isNeedUpdateShaderMap then
      { m.CacheShaderMap R with isNeedUpdateShaderMap := false }
    else m
  match UnorderedMap.find m1.shaderMap InVertexFactoryHash with
  | none => (none, m1)
  | some shaders => (findShaderOfFrequency shaders InShaderFrequency, m1)

end FMaterial

/-- One call that changes the configuration of a Material. -/
inductive FMaterialConfigCall where
  | SetShader (InShaderMetaType : FShaderMetaType)
  | SetUsageFlags (InUsageFlags : Nat)
  | UsageOnStaticMesh (InIsUseOnStaticMeshes : Bool)
deriving DecidableEq, Repr

/-- One call that sets a parameter of a Material. -/
inductive FMaterialParameterCall where
  | SetScalarParameterValue (InParameterName : String) (InValue : FloatBits)
  | SetTextureParameterValue (InParameterName : String) (InValue : FTexture2DRef)
deriving DecidableEq, Repr

namespace FMaterial

variable {N : Nat}

/-- Run one configuration call. -/
def configCall (m : FMaterial N) : FMaterialConfigCall → Option (FMaterial N)
  | .SetShader T => m.SetShader T
  | .SetUsageFlags flags => some (m.SetUsageFlags flags)
  | .UsageOnStaticMesh b => some (m.UsageOnStaticMesh b)

/-- Run a sequence of configuration calls, first call first; a fatal stop ends it. -/
def configCalls : FMaterial N → List FMaterialConfigCall → Option (FMaterial N)
  | m, [] => some m
  | m, c :: cs => (m.configCall c).bind fun m' => configCalls m' cs

/-- Run one parameter call. -/
def parameterCall (m : FMaterial N) : FMaterialParameterCall → FMaterial N
  | .SetScalarParameterValue n v => m.SetScalarParameterValue n v
  | .SetTextureParameterValue n v => m.SetTextureParameterValue n v

/-- Run a sequence of parameter calls, first call first. -/
def parameterCalls : FMaterial N → List FMaterialParameterCall → FMaterial N
  | m, [] => m
  | m, c :: cs => parameterCalls (m.parameterCall c) cs

/-- The cache can be trusted: a Material whose dirty flag is clear holds the map
that `CacheShaderMap` builds from its present configuration. -/
def CacheTrusted (R : FShaderRegistries) (m : FMaterial N) : Prop :=
  m.isNeedUpdateShaderMap = false → m.shaderMap = (m.CacheShaderMap R).shaderMap

end FMaterial

/-- Two Material states agree on everything that decides the choice of shaders:
dirty flag, shader types, usage, the two render flags and the shader map. -/
def SameShaderState {N : Nat} (a b : FMaterial N) : Prop :=
  a.isNeedUpdateShaderMap = b.isNeedUpdateShaderMap ∧ a.shadersType = b.shadersType ∧
  a.usage = b.usage ∧ a.isTwoSided = b.isTwoSided ∧ a.isWireframe = b.isWireframe ∧
  a.shaderMap = b.shaderMap

/-! ### Serialization of a Material reference (`operator<<( FArchive&, FMaterialRef& )`) -/

/-- Reference to `FMaterial` (`TRefCountPtr< class FMaterial >`): the Material
referred to, by address, or null. -/
abbrev FMaterialRef := Option Nat

/-- Modelled from the spec: the struct `FAssetReference` is declared outside the
given sources; section 6 gives it as `(packagePath: string, contentHash:
integer)`. -/
structure FAssetReference where
  pathPackage : String
  hash : Nat
deriving DecidableEq, Repr

/-- Modelled from the spec: the class `FArchive` is declared outside the given
sources. An archive is in saving or in loading mode and holds the asset
references written to it that have not been read back yet. -/
structure FArchive where
  isSaving : Bool
  records : List FAssetReference
deriving DecidableEq, Repr

/-- Modelled from the spec: `operator<<( FArchive&, FAssetReference& )`, declared
outside the given sources. Saving writes the asset identity at the end of the
archive; loading takes the next one from its front, and stops the program when
the archive holds none. Returns the archive and the value after the call. -/
def serializeFAssetReference (InArchive : FArchive) (InValue : FAssetReference) :
    Option (FArchive × FAssetReference) :=
  if InArchive.isSaving then
    some ({ InArchive with records := InArchive.records ++ [InValue] }, InValue)
  else
    match InArchive.records with
    | [] => none
    | r :: rest => some ({ InArchive with records := rest }, r)

/-- The parts of the asset system that `operator<<( FArchive&, FMaterialRef& )`
calls and that are declared outside the given sources: the default-constructed
`FAssetReference()`, `FAssetReference::IsValid`, `FAsset::GetAssetReference` (of
the Material at an address) and `GPackageManager->FindAsset`. -/
structure FAssetSystem where
  defaultReference : FAssetReference
  IsValid : FAssetReference → Bool
  GetAssetReference : Nat → FAssetReference
  FindAsset : String → Nat → FMaterialRef

namespace FAssetSystem

/-- The asset reference that saving a Material reference writes:
`InValue ? InValue->GetAssetReference() : FAssetReference()`. -/
def referenceOf (A : FAssetSystem) : FMaterialRef → FAssetReference
  | some M => A.GetAssetReference M
  | none => A.defaultReference

/-- The asset system resolves identities: a default-constructed asset reference
is not valid, and looking up the asset reference of a Material finds that
Material or nothing. -/
def Faithful (A : FAssetSystem) : Prop :=
  A.IsValid A.defaultReference = false ∧
  ∀ M M' : Nat,
    A.FindAsset (A.GetAssetReference M).pathPackage (A.GetAssetReference M).hash = some M' →
      M' = M

end FAssetSystem

/-- Function `operator<<( FArchive& InArchive, FMaterialRef& InValue )` of
`Material.h`. Returns the archive and `InValue` after the call. -/
def serializeFMaterialRef (A : FAssetSystem) (InArchive : FArchive) (InValue : FMaterialRef) :
    Option (FArchive × FMaterialRef) :=
  if InArchive.isSaving then
    (serializeFAssetReference InArchive (A.referenceOf InValue)).map fun r => (r.1, InValue)
  else
    (serializeFAssetReference InArchive A.defaultReference).map fun r =>
      let assetReference := r.2
      if A.IsValid assetReference then
        (r.1, A.FindAsset assetReference.pathPackage assetReference.hash)
      else
        (r.1, InValue)

/-- Save the reference `source` into an empty archive, then load from what was
written into a reference that holds `destination`; the result is the
destination reference after loading. -/
def roundTripFMaterialRef (A : FAssetSystem) (source destination : FMaterialRef) :
    Option FMaterialRef :=
  (serializeFMaterialRef A { isSaving := true, records := [] } source).bind fun saved =>
    (serializeFMaterialRef A { isSaving := false, records := saved.1.records } destination).map
      fun loaded => loaded.2

/-- The round trip ends with the destination referring to the original Material
or being null. -/
def RoundTripOriginalOrNull (A : FAssetSystem) (source destination : FMaterialRef) : Prop :=
  ∃ r, roundTripFMaterialRef A source destination = some r ∧ (r = source ∨ r = none)

/-! ### RHI/BaseRHI.h -/

/-- Class `FBaseRHI`: it has no data members. -/
structure FBaseRHI where
deriving DecidableEq, Repr

namespace FBaseRHI

/-- Method `FBaseRHI::Init`. -/
def Init (self : FBaseRHI) (_InIsEditor : Bool) : FBaseRHI := self

/-- Method `FBaseRHI::Destroy`. -/
def Destroy (self : FBaseRHI) : FBaseRHI := self

/-- Method `FBaseRHI::CreateViewport`. -/
def CreateViewport (_self : FBaseRHI) (_InWindowHandle : Option Nat) (_InWidth _InHeight : Nat) :
    Option Nat := none

/-- Method `FBaseRHI::CreateVertexShader`. -/
def CreateVertexShader (_self : FBaseRHI) (_InData : Option (List Nat)) (_InSize : Nat) :
    Option Nat := none

/-- Method `FBaseRHI::CreateHullShader`. -/
def CreateHullShader (_self : FBaseRHI) (_InData : Option (List Nat)) (_InSize : Nat) :
    Option Nat := none

/-- Method `FBaseRHI::CreateDomainShader`. -/
def CreateDomainShader (_self : FBaseRHI) (_InData : Option (List Nat)) (_InSize : Nat) :
    Option Nat := none

/-- Method `FBaseRHI::CreatePixelShader`. -/
def CreatePixelShader (_self : FBaseRHI) (_InData : Option (List Nat)) (_InSize : Nat) :
    Option Nat := none

/-- Method `FBaseRHI::CreateGeometryShader`. -/
def CreateGeometryShader (_self : FBaseRHI) (_InData : Option (List Nat)) (_InSize : Nat) :
    Option Nat := none

/-- Method `FBaseRHI::BeginDrawingViewport`. -/
def BeginDrawingViewport (self : FBaseRHI) (_InDeviceContext _InViewport : Option Nat) :
    FBaseRHI := self

/-- Method `FBaseRHI::EndDrawingViewport`. -/
def EndDrawingViewport (self : FBaseRHI) (_InDeviceContext _InViewport : Option Nat)
    (_InIsPresent _InLockToVsync : Bool) : FBaseRHI := self

/-- Method `FBaseRHI::IsInitialize`. -/
def IsInitialize (_self : FBaseRHI) : Bool := false

/-- Method `FBaseRHI::GetImmediateContext`. -/
def GetImmediateContext (_self : FBaseRHI) : Option Nat := none

end FBaseRHI

/-! ### Sample values -/

/-- A vertex shader type, frequency 0. -/
def sampleVertexType : FShaderMetaType := { name := "BasePassVertexShader", frequency := 0 }

/-- A pixel shader type, frequency 3. -/
def samplePixelType : FShaderMetaType := { name := "BasePassPixelShader", frequency := 3 }

/-- A Material over five draw frequencies with a clear dirty flag, an empty
cache and one scalar parameter. -/
def sampleMaterial : FMaterial 5 :=
  { isNeedUpdateShaderMap := false
    isTwoSided := false
    isWireframe := false
    usage := MU_None
    shadersType := fun _ => none
    shaderMap := []
    scalarParameters := [("roughness", 1056964608)]
    textureParameters := [] }

/-- The sample Material with its dirty flag set and a cache entry left over from
an earlier configuration. -/
def sampleStaleMaterial : FMaterial 5 :=
  { sampleMaterial with
    isNeedUpdateShaderMap := true
    shaderMap := [(42, [none])] }

/-- The stale sample Material after `SetShader( sampleVertexType )` and
`SetUsageFlags( MU_StaticMesh )`. -/
def sampleConfigured : FMaterial 5 :=
  { sampleStaleMaterial with
    shadersType := Function.update (fun _ => none) ⟨0, by decide⟩ (some sampleVertexType)
    usage := MU_StaticMesh }

/-- Registries with one live static-mesh layout of hash 42. -/
def sampleRegistries : FShaderRegistries :=
  { liveVertexFactories := fun usage => if usage % 2 = 1 then [42] else []
    findInstance := fun T h =>
      some { name := T.name, frequency := T.frequency, vertexFactoryHash := h,
             numInstructions := 0, vertexShader := none, hullShader := none,
             domainShader := none, geometryShader := none, pixelShader := none } }

/-- An asset system with one package, `Materials`, in which the Material at
address `M` has content hash `M`; a reference is valid when its package path is
not empty. -/
def sampleAssets : FAssetSystem :=
  { defaultReference := { pathPackage := "", hash := 4294967295 }
    IsValid := fun r => r.pathPackage != ""
    GetAssetReference := fun M => { pathPackage := "Materials", hash := M }
    FindAsset := fun path hash => if path = "Materials" then some hash else none }

/-! ### Calls on the base device -/

/-- One call of the viewport bracket on a device. -/
inductive FBaseRHICall where
  | BeginDrawingViewport (InDeviceContext InViewport : Option Nat)
  | EndDrawingViewport (InDeviceContext InViewport : Option Nat)
      (InIsPresent InLockToVsync : Bool)
deriving DecidableEq, Repr

namespace FBaseRHI

/-- Run one call on the base device; `none` would be a fatal stop. Both methods
have an empty body, so the call returns. -/
def call (rhi : FBaseRHI) : FBaseRHICall → Option FBaseRHI
  | .BeginDrawingViewport ctx vp => some (rhi.BeginDrawingViewport ctx vp)
  | .EndDrawingViewport ctx vp present vsync => some (rhi.EndDrawingViewport ctx vp present vsync)

/-- Run a sequence of calls on the base device, first call first. -/
def calls : FBaseRHI → List FBaseRHICall → Option FBaseRHI
  | rhi, [] => some rhi
  | rhi, c :: cs => (rhi.call c).bind fun rhi' => calls rhi' cs

end FBaseRHI

/-! ## Actors/Actor.cpp

Actors and components are objects in memory and refer to each other by
address. The classes are declared outside the given sources; the members below
are the ones the methods of `Actor.cpp` read and write. -/

/-- An actor component (`LActorComponent`): the owner read by `GetOwner` and
written by `SetOwner`, the name written by `SetName`, whether the object is a
`LSceneComponent` (`IsA< LSceneComponent >()`), and the component given to
`SetupAttachment`. -/
structure LActorComponent where
  owner : Option Nat
  name : String
  isSceneComponent : Bool
  attachParent : Option Nat
deriving DecidableEq, Repr

/-- Data members of class `AActor` used in `Actor.cpp`. -/
structure AActor where
  ownedComponents : List Nat
  rootComponent : Option Nat
  collisionComponent : Option Nat
  bIsStatic : Bool
  bNeedReinitCollision : Bool
deriving DecidableEq, Repr

/-- The objects in memory: the actor and the component at each address, and the
components on which `TermPrimitivePhysics` has been called, oldest first (the
body of that method is outside the given sources). -/
structure FActorWorld where
  actors : Nat → AActor
  components : Nat → LActorComponent
  termPhysicsCalls : List Nat

namespace FActorWorld

/-- Call `SetOwner( InOwner )` on the component at `c`. -/
def SetOwner (w : FActorWorld) (c : Nat) (InOwner : Option Nat) : FActorWorld :=
  { w with components := Function.update w.components c { w.components c with owner := InOwner } }

/-- Call `SetName( InName )` on the component at `c`. -/
def SetName (w : FActorWorld) (c : Nat) (InName : String) : FActorWorld :=
  { w with components := Function.update w.components c { w.components c with name := InName } }

/-- Call `SetupAttachment( InParent )` on the scene component at `c`. -/
def SetupAttachment (w : FActorWorld) (c : Nat) (InParent : Option Nat) : FActorWorld :=
  { w with
    components := Function.update w.components c { w.components c with attachParent := InParent } }

/-- Call `TermPrimitivePhysics()` on the component at `c`. -/
def TermPrimitivePhysics (w : FActorWorld) (c : Nat) : FActorWorld :=
  { w with termPhysicsCalls := w.termPhysicsCalls ++ [c] }

/-- Replace the actor at `a`. -/
def setActor (w : FActorWorld) (a : Nat) (actor : AActor) : FActorWorld :=
  { w with actors := Function.update w.actors a actor }

end FActorWorld

namespace AActor

/-- The search loop of `AActor::RemoveOwnedComponent`: the first `index`, counted
from `index` at the head, with `ownedComponents[ index ] == InComponent`. -/
def findOwnedIndex : List Nat → Nat → Nat → Option Nat
  | [], _, _ => none
  | component :: rest, InComponent, index =>
      if component = InComponent then some index else findOwnedIndex rest InComponent (index + 1)

/-- Method `AActor::RemoveOwnedComponent`, called on the actor at `this`. -/
def RemoveOwnedComponent (w : FActorWorld) (this : Nat) (InComponent : Option Nat) :
    Option FActorWorld :=
  match InComponent with
  | none => none
  | some c =>
    if (w.components c).owner = some this then
      match findOwnedIndex (w.actors this).ownedComponents c 0 with
      | none => some w
      | some index =>
        let branch : Option FActorWorld :=
          if some c = (w.actors this).collisionComponent then
            some ((w.TermPrimitivePhysics c).setActor this
              { w.actors this with collisionComponent := none })
          else if some c = (w.actors this).rootComponent then
            none
          else
            some w
        branch.bind fun w₁ =>
          let w₂ := w₁.SetOwner c none
          some (w₂.setActor this
            { w₂.actors this with
              ownedComponents := (w₂.actors this).ownedComponents.eraseIdx index })
    else
      none

/-- Method `AActor::AddOwnedComponent`, called on the actor at `this`. -/
def AddOwnedComponent (w : FActorWorld) (this : Nat) (InComponent : Option Nat) :
    Option FActorWorld :=
  match InComponent with
  | none => none
  | some c =>
    if (w.components c).owner = some this then
      none
    else
      let removed : Option FActorWorld :=
        match (w.components c).owner with
        | some owner => RemoveOwnedComponent w owner (some c)
        | none => some w
      removed.bind fun w₁ =>
        let w₂ := w₁.SetOwner c (some this)
        some (w₂.setActor this
          { w₂.actors this with ownedComponents := (w₂.actors this).ownedComponents ++ [c] })

/-- The loop of `AActor::ResetOwnedComponents` over the components still to
visit. -/
def resetLoop (collisionComponent : Option Nat) : FActorWorld → List Nat → FActorWorld
  | w, [] => w
  | w, component :: rest =>
      let w₁ := if collisionComponent = some component then w.TermPrimitivePhysics component else w
      resetLoop collisionComponent (w₁.SetOwner component none) rest

/-- Method `AActor::ResetOwnedComponents`, called on the actor at `this`. -/
def ResetOwnedComponents (w : FActorWorld) (this : Nat) : FActorWorld :=
  let w₁ := resetLoop (w.actors this).collisionComponent w (w.actors this).ownedComponents
  w₁.setActor this
    { w₁.actors this with
      ownedComponents := []
      collisionComponent := none
      rootComponent := none }

end AActor

/-- What `InClass->CreateObject()` returns (`LClass` and `LObject` are declared
outside the given sources): the address of the new object, whether it is a
`LActorComponent` (`IsA< LActorComponent >()`), and the component as its
constructor leaves it. -/
structure LObject where
  address : Nat
  isActorComponent : Bool
  component : LActorComponent
deriving DecidableEq, Repr

/-- A class (`LClass`), by the object that `CreateObject()` makes. -/
structure LClass where
  CreateObject : LObject
deriving DecidableEq, Repr

/-- Method `AActor::CreateComponent`, called on the actor at `this`. Returns the
objects in memory after the call and the address of the component. -/
def AActor.CreateComponent (w : FActorWorld) (this : Nat) (InClass : Option LClass)
    (InName : String) : Option (FActorWorld × Nat) :=
  match InClass with
  | none => none
  | some cls =>
    let newObject := cls.CreateObject
    if newObject.isActorComponent then
      let component := newObject.address
      let w₀ : FActorWorld :=
        { w with components := Function.update w.components component newObject.component }
      let bIsASceneComponent := newObject.component.isSceneComponent
      let w₁ : FActorWorld :=
        if (w₀.actors this).rootComponent = none ∧ bIsASceneComponent = true then
          w₀.setActor this { w₀.actors this with rootComponent := some component }
        else if (w₀.actors this).rootComponent ≠ none ∧ bIsASceneComponent = true then
          w₀.SetupAttachment component (w₀.actors this).rootComponent
        else
          w₀
      let w₂ := w₁.SetName component InName
      (AActor.AddOwnedComponent w₂ this (some component)).map fun w₃ => (w₃, component)
    else
      none

/-- Ownership invariant of actors: a component listed in an actor's
`ownedComponents` has that actor as its owner, occurs there once, and is listed
by no other actor. -/
def OwnershipInvariant (w : FActorWorld) : Prop :=
  ∀ a c : Nat, c ∈ (w.actors a).ownedComponents →
    (w.components c).owner = some a ∧ (w.actors a).ownedComponents.count c = 1 ∧
    ∀ b : Nat, b ≠ a → c ∉ (w.actors b).ownedComponents

/-- One call that changes who owns a component. -/
inductive AActorOwnershipCall where
  | AddOwnedComponent (this : Nat) (InComponent : Option Nat)
  | RemoveOwnedComponent (this : Nat) (InComponent : Option Nat)
  | ResetOwnedComponents (this : Nat)
deriving DecidableEq, Repr

/-- Run one ownership call; `none` is a failed assertion. -/
def AActor.ownershipCall (w : FActorWorld) : AActorOwnershipCall → Option FActorWorld
  | .AddOwnedComponent this c => AActor.AddOwnedComponent w this c
  | .RemoveOwnedComponent this c => AActor.RemoveOwnedComponent w this c
  | .ResetOwnedComponents this => some (AActor.ResetOwnedComponents w this)

/-! ### WorldGridVertexFactory.cpp, EditorConstraints.cpp -/

/-- The objects that `ConstructShaderParameters` can allocate. -/
inductive FVertexFactoryShaderParameters where
  | FGeneralVertexShaderParameters
deriving DecidableEq, Repr

/-- Method `FWorldGridVertexFactory::ConstructShaderParameters`. The enumerator
`SF_Vertex` of `EShaderFrequency` is declared outside the given sources and is
taken as a parameter. -/
def FWorldGridVertexFactory.ConstructShaderParameters (SF_Vertex : Nat)
    (InShaderFrequency : Nat) : Option FVertexFactoryShaderParameters :=
  if InShaderFrequency = SF_Vertex then
    some FVertexFactoryShaderParameters.FGeneralVertexShaderParameters
  else
    none

/-- The expression `1 << index` on a 32-bit `int`, for `index` below 32: the
bits of `2 ^ index` read as a signed value. From 32 on the C++ shift is not
defined. -/
def shiftLeftInt32 (index : Nat) : Int :=
  let bits := 2 ^ index % UINT32_RANGE
  if bits < 2 ^ 31 then (bits : Int) else (bits : Int) - (UINT32_RANGE : Int)

/-- Data members of class `FEditorConstraints`. A grid size is a `float`; it
holds the value of `( float )( 1 << index )`, which the conversion keeps exactly
because it is zero or a power of two up to sign. -/
structure FEditorConstraints where
  currentGridSize : Nat
  gridSizes : List Int
deriving DecidableEq, Repr

/-- The loop of the constructor of `FEditorConstraints`, from `index` on, with
`remaining` stores left before `index` reaches `MaxGridSizes`; the array is a
list that grows by one store per turn. -/
def FEditorConstraints.fillGridSizes : Nat → Nat → List Int → List Int
  | 0, _, gridSizes => gridSizes
  | remaining + 1, index, gridSizes =>
      fillGridSizes remaining (index + 1) (gridSizes ++ [shiftLeftInt32 index])

/-- Constructor `FEditorConstraints::FEditorConstraints`. The enumerator
`MaxGridSizes` is declared outside the given sources and is taken as a
parameter. -/
def FEditorConstraints.construct (MaxGridSizes : Nat) : FEditorConstraints :=
  { currentGridSize := 4
    gridSizes := FEditorConstraints.fillGridSizes MaxGridSizes 0 [] }

/-! ### Sample objects -/

/-- Memory with two actors. Actor 0 owns components 10 (its root), 11 (its
collision component) and 12; actor 1 owns component 20, which is both its root
and its collision component. -/
def sampleWorld : FActorWorld :=
  { actors := fun a =>
      if a = 0 then
        { ownedComponents := [10, 11, 12], rootComponent := some 10,
          collisionComponent := some 11, bIsStatic := false, bNeedReinitCollision := false }
      else if a = 1 then
        { ownedComponents := [20], rootComponent := some 20, collisionComponent := some 20,
          bIsStatic := false, bNeedReinitCollision := false }
      else
        { ownedComponents := [], rootComponent := none, collisionComponent := none,
          bIsStatic := false, bNeedReinitCollision := false }
    components := fun c =>
      if c = 10 ∨ c = 11 ∨ c = 12 then
        { owner := some 0, name := "component", isSceneComponent := true, attachParent := none }
      else if c = 20 then
        { owner := some 1, name := "component", isSceneComponent := true, attachParent := none }
      else
        { owner := none, name := "", isSceneComponent := false, attachParent := none }
    termPhysicsCalls := [] }

/-- A class of scene components; the object it creates lies at address 30. -/
def sampleSceneClass : LClass :=
  { CreateObject :=
      { address := 30, isActorComponent := true,
        component :=
          { owner := none, name := "", isSceneComponent := true, attachParent := none } } }

/-! ## Theorems -/

/-! ### std::unordered_map -/

theorem UnorderedMap.find_assign_self {κ ν : Type} [DecidableEq κ] (m : List (κ × ν)) (k : κ)
    (v : ν) : UnorderedMap.find (UnorderedMap.assign m k v) k = some v := by
  induction m with
  | nil => simp [UnorderedMap.assign, UnorderedMap.find]
  | cons p rest ih =>
    obtain ⟨k', v'⟩ := p
    by_cases hk : k' = k
    · simp [UnorderedMap.assign, UnorderedMap.find, hk]
    · simp [UnorderedMap.assign, UnorderedMap.find, hk, ih]

theorem UnorderedMap.find_assign_of_ne {κ ν : Type} [DecidableEq κ] (m : List (κ × ν))
    (k k₂ : κ) (v : ν) (hne : k₂ ≠ k) :
    UnorderedMap.find (UnorderedMap.assign m k v) k₂ = UnorderedMap.find m k₂ := by
  induction m with
  | nil => simp [UnorderedMap.assign, UnorderedMap.find, Ne.symm hne]
  | cons p rest ih =>
    obtain ⟨k', v'⟩ := p
    by_cases hk : k' = k
    · subst hk
      simp [UnorderedMap.assign, UnorderedMap.find, Ne.symm hne]
    · by_cases hk₂ : k' = k₂
      · subst hk₂
        simp [UnorderedMap.assign, UnorderedMap.find, hk]
      · simp [UnorderedMap.assign, UnorderedMap.find, hk, hk₂, ih]

theorem UnorderedMap.size_assign {κ ν : Type} [DecidableEq κ] (m : List (κ × ν)) (k : κ)
    (v : ν) :
    UnorderedMap.size (UnorderedMap.assign m k v) =
      if UnorderedMap.contains m k then UnorderedMap.size m else UnorderedMap.size m + 1 := by
  induction m with
  | nil => simp [UnorderedMap.assign, UnorderedMap.find, UnorderedMap.size, UnorderedMap.contains]
  | cons p rest ih =>
    obtain ⟨k', v'⟩ := p
    by_cases hk : k' = k
    · simp [UnorderedMap.assign, UnorderedMap.find, UnorderedMap.size, UnorderedMap.contains, hk]
    · simp only [UnorderedMap.size, UnorderedMap.contains] at ih
      simp only [UnorderedMap.assign, UnorderedMap.find, UnorderedMap.size,
        UnorderedMap.contains, hk, if_false, List.length_cons, ih]
      split <;> rfl

theorem UnorderedMap.find_foldl_assign {κ ν : Type} [DecidableEq κ] (g : κ → ν) (ks : List κ)
    (init : List (κ × ν)) (k : κ) :
    UnorderedMap.find (ks.foldl (fun acc h => UnorderedMap.assign acc h (g h)) init) k =
      if k ∈ ks then some (g k) else UnorderedMap.find init k := by
  induction ks generalizing init with
  | nil => simp
  | cons a rest ih =>
    rw [List.foldl_cons, ih]
    by_cases hmem : k ∈ rest
    · simp [hmem]
    · by_cases hka : k = a
      · subst hka
        simp [hmem, UnorderedMap.find_assign_self]
      · simp [hmem, hka, UnorderedMap.find_assign_of_ne _ _ _ _ hka]

/-! ### Setters of `FMaterial` -/

/-- C1: `SetShader` with a meta type whose frequency is below
`SF_NumDrawFrequencies` succeeds and leaves `isNeedUpdateShaderMap` true, and so
do `SetUsageFlags` and `UsageOnStaticMesh`, for every state and argument,
whatever the flag was before. -/
theorem C1_setters_set_dirty_flag {N : Nat} (m : FMaterial N) (T : FShaderMetaType)
    (flags : Nat) (b : Bool) (hT : T.frequency < N) :
    (∃ m', m.SetShader T = some m' ∧ m'.isNeedUpdateShaderMap = true) ∧
    (m.SetUsageFlags flags).isNeedUpdateShaderMap = true ∧
    (m.UsageOnStaticMesh b).isNeedUpdateShaderMap = true := by
  refine ⟨?_, rfl, ?_⟩
  · exact ⟨_, dif_pos hT, rfl⟩
  · cases b <;> rfl

/-- Witness of C1 on the clean sample Material, whose usage is already
`MU_None`: the calls change nothing else and still set the flag. -/
theorem C1_setters_set_dirty_flag_witness :
    sampleVertexType.frequency < 5 ∧
    ((∃ m', sampleMaterial.SetShader sampleVertexType = some m' ∧
        m'.isNeedUpdateShaderMap = true) ∧
      (sampleMaterial.SetUsageFlags MU_None).isNeedUpdateShaderMap = true ∧
      (sampleMaterial.UsageOnStaticMesh false).isNeedUpdateShaderMap = true) :=
  ⟨by decide,
    C1_setters_set_dirty_flag sampleMaterial sampleVertexType MU_None false (by decide)⟩

/-- C3: for a meta type `T` whose frequency `f` is below `SF_NumDrawFrequencies`,
`SetShader( T )` succeeds; afterwards slot `f` of `shadersType` refers to `T`,
every other slot is unchanged, and `usage`, `isTwoSided`, `isWireframe`, both
parameter maps and the shader map are unchanged. -/
theorem C3_SetShader_assigns_one_slot {N : Nat} (m : FMaterial N) (T : FShaderMetaType)
    (hT : T.frequency < N) :
    ∃ m', m.SetShader T = some m' ∧
      m'.shadersType ⟨T.frequency, hT⟩ = some T ∧
      (∀ g : Fin N, g.val ≠ T.frequency → m'.shadersType g = m.shadersType g) ∧
      m'.usage = m.usage ∧ m'.isTwoSided = m.isTwoSided ∧ m'.isWireframe = m.isWireframe ∧
      m'.scalarParameters = m.scalarParameters ∧
      m'.textureParameters = m.textureParameters ∧ m'.shaderMap = m.shaderMap := by
  refine ⟨_, dif_pos hT, ?_, ?_, rfl, rfl, rfl, rfl, rfl, rfl⟩
  · exact Function.update_same _ _ _
  · intro g hg
    refine Function.update_noteq ?_ _ _
    intro hEq
    exact hg (congrArg Fin.val hEq)

/-- Witness of C3: the pixel shader type, frequency 3, set on the configured
sample Material, whose slot 0 holds the vertex shader type. -/
theorem C3_SetShader_assigns_one_slot_witness :
    samplePixelType.frequency < 5 ∧
    ∃ m', sampleConfigured.SetShader samplePixelType = some m' ∧
      m'.shadersType ⟨samplePixelType.frequency, by decide⟩ = some samplePixelType ∧
      (∀ g : Fin 5, g.val ≠ samplePixelType.frequency →
        m'.shadersType g = sampleConfigured.shadersType g) ∧
      m'.usage = sampleConfigured.usage ∧ m'.isTwoSided = sampleConfigured.isTwoSided ∧
      m'.isWireframe = sampleConfigured.isWireframe ∧
      m'.scalarParameters = sampleConfigured.scalarParameters ∧
      m'.textureParameters = sampleConfigured.textureParameters ∧
      m'.shaderMap = sampleConfigured.shaderMap :=
  ⟨by decide, C3_SetShader_assigns_one_slot sampleConfigured samplePixelType (by decide)⟩

theorem FMaterial.parameterCall_SameShaderState {N : Nat} (m : FMaterial N)
    (c : FMaterialParameterCall) : SameShaderState (m.parameterCall c) m := by
  cases c <;> exact ⟨rfl, rfl, rfl, rfl, rfl, rfl⟩

theorem FMaterial.parameterCalls_SameShaderState {N : Nat} (calls : List FMaterialParameterCall)
    (m : FMaterial N) : SameShaderState (m.parameterCalls calls) m := by
  induction calls generalizing m with
  | nil => exact ⟨rfl, rfl, rfl, rfl, rfl, rfl⟩
  | cons c cs ih =>
    obtain ⟨a1, a2, a3, a4, a5, a6⟩ := ih (m.parameterCall c)
    obtain ⟨b1, b2, b3, b4, b5, b6⟩ := FMaterial.parameterCall_SameShaderState m c
    exact ⟨a1.trans b1, a2.trans b2, a3.trans b3, a4.trans b4, a5.trans b5, a6.trans b6⟩

/-- C4: `SetScalarParameterValue` and `SetTextureParameterValue` leave
`isNeedUpdateShaderMap`, `shadersType`, `usage`, `isTwoSided`, `isWireframe` and
`shaderMap` as they were, for every name and value, and so does every sequence
of such calls: the dirty flag after the sequence is the flag before it. -/
theorem C4_parameter_setters_keep_shader_state {N : Nat} (m : FMaterial N) (name : String)
    (value : FloatBits) (texture : FTexture2DRef) (calls : List FMaterialParameterCall) :
    SameShaderState (m.SetScalarParameterValue name value) m ∧
    SameShaderState (m.SetTextureParameterValue name texture) m ∧
    SameShaderState (m.parameterCalls calls) m ∧
    (m.parameterCalls calls).isNeedUpdateShaderMap = m.isNeedUpdateShaderMap :=
  ⟨⟨rfl, rfl, rfl, rfl, rfl, rfl⟩, ⟨rfl, rfl, rfl, rfl, rfl, rfl⟩,
    FMaterial.parameterCalls_SameShaderState calls m,
    (FMaterial.parameterCalls_SameShaderState calls m).1⟩

/-- C5: `SetScalarParameterValue` and `SetTextureParameterValue` are
insert-or-update. After the call the mapping holds the value under the given
name and, under every other name, what it held before; the number of entries is
unchanged when the name was present and one more when it was not. The other
parameter mapping is not touched. -/
theorem C5_parameter_setters_insert_or_update {N : Nat} (m : FMaterial N) (name : String)
    (value : FloatBits) (texture : FTexture2DRef) :
    (UnorderedMap.find (m.SetScalarParameterValue name value).scalarParameters name = some value ∧
      (∀ other : String, other ≠ name →
        UnorderedMap.find (m.SetScalarParameterValue name value).scalarParameters other =
          UnorderedMap.find m.scalarParameters other) ∧
      UnorderedMap.size (m.SetScalarParameterValue name value).scalarParameters =
        (if UnorderedMap.contains m.scalarParameters name then
          UnorderedMap.size m.scalarParameters
         else UnorderedMap.size m.scalarParameters + 1) ∧
      (m.SetScalarParameterValue name value).textureParameters = m.textureParameters) ∧
    (UnorderedMap.find (m.SetTextureParameterValue name texture).textureParameters name =
        some texture ∧
      (∀ other : String, other ≠ name →
        UnorderedMap.find (m.SetTextureParameterValue name texture).textureParameters other =
          UnorderedMap.find m.textureParameters other) ∧
      UnorderedMap.size (m.SetTextureParameterValue name texture).textureParameters =
        (if UnorderedMap.contains m.textureParameters name then
          UnorderedMap.size m.textureParameters
         else UnorderedMap.size m.textureParameters + 1) ∧
      (m.SetTextureParameterValue name texture).scalarParameters = m.scalarParameters) :=
  ⟨⟨UnorderedMap.find_assign_self _ _ _,
      fun _ hne => UnorderedMap.find_assign_of_ne _ _ _ _ hne,
      UnorderedMap.size_assign _ _ _, rfl⟩,
    ⟨UnorderedMap.find_assign_self _ _ _,
      fun _ hne => UnorderedMap.find_assign_of_ne _ _ _ _ hne,
      UnorderedMap.size_assign _ _ _, rfl⟩⟩

/-- C7: `SetTwoSided( b )` makes `IsTwoSided()` return `b` and changes no other
member; so `SetTwoSided( true )` followed by `SetTwoSided( false )` leaves
`IsTwoSided()` false and `scalarParameters` as it was. -/
theorem C7_SetTwoSided_changes_only_isTwoSided {N : Nat} (m : FMaterial N) (b : Bool) :
    ((m.SetTwoSided true).SetTwoSided false).IsTwoSided = false ∧
    ((m.SetTwoSided true).SetTwoSided false).scalarParameters = m.scalarParameters ∧
    (m.SetTwoSided b).IsTwoSided = b ∧
    (m.SetTwoSided b).scalarParameters = m.scalarParameters ∧
    (m.SetTwoSided b).textureParameters = m.textureParameters ∧
    (m.SetTwoSided b).isWireframe = m.isWireframe ∧
    (m.SetTwoSided b).usage = m.usage ∧
    (m.SetTwoSided b).shadersType = m.shadersType ∧
    (m.SetTwoSided b).isNeedUpdateShaderMap = m.isNeedUpdateShaderMap ∧
    (m.SetTwoSided b).shaderMap = m.shaderMap :=
  ⟨rfl, rfl, rfl, rfl, rfl, rfl, rfl, rfl, rfl, rfl⟩

/-! ### The shader-map cache -/

theorem FMaterial.find_CacheShaderMap {N : Nat} (R : FShaderRegistries) (m : FMaterial N)
    (h : Nat) :
    UnorderedMap.find (m.CacheShaderMap R).shaderMap h =
      if h ∈ R.liveVertexFactories m.usage then some (resolveMeshShaders R m.shadersType h)
      else none := by
  simp only [FMaterial.CacheShaderMap, FMaterial.GetMeshShaders]
  rw [UnorderedMap.find_foldl_assign (fun h => resolveMeshShaders R m.shadersType h)]
  rfl

theorem FMaterial.configCall_dirty {N : Nat} (m m' : FMaterial N) (c : FMaterialConfigCall)
    (hc : m.configCall c = some m') : m'.isNeedUpdateShaderMap = true := by
  cases c with
  | SetShader T =>
    simp only [FMaterial.configCall, FMaterial.SetShader] at hc
    split at hc
    · cases hc; rfl
    · cases hc
  | SetUsageFlags flags =>
    simp only [FMaterial.configCall, Option.some.injEq] at hc
    subst hc; rfl
  | UsageOnStaticMesh b =>
    simp only [FMaterial.configCall, Option.some.injEq] at hc
    subst hc; cases b <;> rfl

theorem FMaterial.configCalls_CacheTrusted {N : Nat} (R : FShaderRegistries)
    (calls : List FMaterialConfigCall) (m m' : FMaterial N) (hm : m.CacheTrusted R)
    (hc : m.configCalls calls = some m') : m'.CacheTrusted R := by
  induction calls generalizing m with
  | nil =>
    simp only [FMaterial.configCalls, Option.some.injEq] at hc
    subst hc; exact hm
  | cons c cs ih =>
    simp only [FMaterial.configCalls] at hc
    cases hstep : m.configCall c with
    | none => rw [hstep] at hc; cases hc
    | some m₁ =>
      rw [hstep] at hc
      refine ih m₁ ?_ hc
      intro hclean
      rw [FMaterial.configCall_dirty m m₁ c hstep] at hclean
      cases hclean

theorem FMaterial.configCalls_dirty_of_ne_nil {N : Nat} (calls : List FMaterialConfigCall)
    (m m' : FMaterial N) (hne : calls ≠ []) (hc : m.configCalls calls = some m') :
    m'.isNeedUpdateShaderMap = true := by
  induction calls generalizing m with
  | nil => exact absurd rfl hne
  | cons c cs ih =>
    simp only [FMaterial.configCalls] at hc
    cases hstep : m.configCall c with
    | none => rw [hstep] at hc; cases hc
    | some m₁ =>
      rw [hstep] at hc
      cases cs with
      | nil =>
        simp only [Option.some_bind, FMaterial.configCalls, Option.some.injEq] at hc
        subst hc
        exact FMaterial.configCall_dirty m m₁ c hstep
      | cons c₂ cs₂ => exact ih m₁ (List.cons_ne_nil _ _) hc

theorem FMaterial.GetShader_of_CacheTrusted {N : Nat} (R : FShaderRegistries) (m : FMaterial N)
    (h f : Nat) (hm : m.CacheTrusted R) :
    (m.GetShader R h f).1 = ResolveShader R m.shadersType m.usage h f ∧
    (m.GetShader R h f).2.isNeedUpdateShaderMap = false ∧
    (m.GetShader R h f).2.shaderMap = (m.CacheShaderMap R).shaderMap := by
  have hfind := FMaterial.find_CacheShaderMap R m h
  cases hflag : m.isNeedUpdateShaderMap with
  | true =>
    by_cases hmem : h ∈ R.liveVertexFactories m.usage
    · simp only [hmem, if_true] at hfind
      simp [FMaterial.GetShader, hflag, hfind, ResolveShader, hmem]
    · simp only [hmem, if_false] at hfind
      simp [FMaterial.GetShader, hflag, hfind, ResolveShader, hmem]
  | false =>
    have hmap := hm hflag
    rw [← hmap] at hfind
    by_cases hmem : h ∈ R.liveVertexFactories m.usage
    · simp only [hmem, if_true] at hfind
      simp [FMaterial.GetShader, hflag, hfind, ResolveShader, hmem, ← hmap]
    · simp only [hmem, if_false] at hfind
      simp [FMaterial.GetShader, hflag, hfind, ResolveShader, hmem, ← hmap]

/-- C2: a Material that is dirty, or whose clear flag goes with an up-to-date
map, is taken through any sequence of `SetShader`, `SetUsageFlags` and
`UsageOnStaticMesh` calls that do not stop on an assertion. `GetShader` on the
result returns the shader resolved under the configuration reached at the end,
whatever the stored map held; it leaves the flag cleared and the map equal to
the one `CacheShaderMap` builds from that configuration, so when the flag was
set the map was rebuilt before the lookup. -/
theorem C2_GetShader_resolves_latest_configuration {N : Nat} (R : FShaderRegistries)
    (m m' : FMaterial N) (calls : List FMaterialConfigCall) (h f : Nat)
    (hm : m.isNeedUpdateShaderMap = true ∨ m.CacheTrusted R)
    (hc : m.configCalls calls = some m') :
    (calls ≠ [] → m'.isNeedUpdateShaderMap = true) ∧
    (m'.GetShader R h f).1 = ResolveShader R m'.shadersType m'.usage h f ∧
    (m'.GetShader R h f).2.isNeedUpdateShaderMap = false ∧
    (m'.GetShader R h f).2.shaderMap = (m'.CacheShaderMap R).shaderMap ∧
    (m'.GetShader R h f).2.shadersType = m'.shadersType ∧
    (m'.GetShader R h f).2.usage = m'.usage := by
  have hm₀ : m.CacheTrusted R := by
    rcases hm with hdirty | htrust
    · intro hclean
      rw [hdirty] at hclean
      cases hclean
    · exact htrust
  have hm' := FMaterial.configCalls_CacheTrusted R calls m m' hm₀ hc
  obtain ⟨h1, h2, h3⟩ := FMaterial.GetShader_of_CacheTrusted R m' h f hm'
  refine ⟨?_, h1, h2, h3, ?_, ?_⟩
  · intro hne
    cases calls with
    | nil => exact absurd rfl hne
    | cons c cs => exact FMaterial.configCalls_dirty_of_ne_nil (c :: cs) m m' hne hc
  · unfold FMaterial.GetShader
    cases m'.isNeedUpdateShaderMap <;> (dsimp only; split <;> rfl)
  · unfold FMaterial.GetShader
    cases m'.isNeedUpdateShaderMap <;> (dsimp only; split <;> rfl)

/-- Witness of C2: the stale sample Material, whose map still holds a null entry
under hash 42, after `SetShader` of the vertex type and `SetUsageFlags( 1 )`:
`GetShader( 42, 0 )` returns the vertex shader instance of layout 42. -/
theorem C2_GetShader_resolves_latest_configuration_witness :
    (sampleStaleMaterial.isNeedUpdateShaderMap = true ∨
      sampleStaleMaterial.CacheTrusted sampleRegistries) ∧
    sampleStaleMaterial.configCalls
      [.SetShader sampleVertexType, .SetUsageFlags MU_StaticMesh] = some sampleConfigured ∧
    (sampleConfigured.GetShader sampleRegistries 42 0).1 =
      sampleRegistries.findInstance sampleVertexType 42 ∧
    (sampleConfigured.GetShader sampleRegistries 42 0).1 =
      ResolveShader sampleRegistries sampleConfigured.shadersType sampleConfigured.usage 42 0 :=
  ⟨Or.inl rfl, rfl, by decide,
    (C2_GetShader_resolves_latest_configuration sampleRegistries sampleStaleMaterial
      sampleConfigured [.SetShader sampleVertexType, .SetUsageFlags MU_StaticMesh] 42 0
      (Or.inl rfl) rfl).2.1⟩

/-! ### Usage flags -/

theorem testBit_complement32_MU_StaticMesh (i : Nat) (h0 : i ≠ 0) (h32 : i < 32) :
    (complement32 MU_StaticMesh).testBit i = true := by
  have hval : complement32 MU_StaticMesh = 4294967294 := by decide
  rw [hval]
  interval_cases i <;> first | exact absurd rfl h0 | rfl

theorem testBit_MU_StaticMesh (i : Nat) (h0 : i ≠ 0) : MU_StaticMesh.testBit i = false := by
  have hval : MU_StaticMesh = 1 := by decide
  rw [hval]
  cases i with
  | zero => exact absurd rfl h0
  | succ j =>
    rw [Nat.testBit_succ]
    simp

theorem testBit_uint32_high (u i : Nat) (hu : u < UINT32_RANGE) (hi : 32 ≤ i) :
    u.testBit i = false :=
  Nat.testBit_lt_two_pow (lt_of_lt_of_le hu (Nat.pow_le_pow_right (by norm_num) hi))

/-- C6: for every 32-bit usage value `u`, `UsageOnStaticMesh( true )` makes
`GetUsageFlags()` return `u | MU_StaticMesh` and `UsageOnStaticMesh( false )`
makes it return `u & ~MU_StaticMesh` (complement as `uint32`); bit 0 is set or
cleared as asked, every other bit of `usage` is as before, and the result is a
32-bit value. -/
theorem C6_UsageOnStaticMesh_sets_or_clears_bit {N : Nat} (m : FMaterial N)
    (hu : m.usage < UINT32_RANGE) :
    (m.UsageOnStaticMesh true).GetUsageFlags = m.usage ||| MU_StaticMesh ∧
    (m.UsageOnStaticMesh false).GetUsageFlags = m.usage &&& complement32 MU_StaticMesh ∧
    (m.UsageOnStaticMesh true).GetUsageFlags.testBit 0 = true ∧
    (m.UsageOnStaticMesh false).GetUsageFlags.testBit 0 = false ∧
    (∀ (b : Bool) (i : Nat), i ≠ 0 →
      (m.UsageOnStaticMesh b).GetUsageFlags.testBit i = m.usage.testBit i) ∧
    (∀ b : Bool, (m.UsageOnStaticMesh b).GetUsageFlags < UINT32_RANGE) := by
  have hor : m.usage ||| MU_StaticMesh < UINT32_RANGE :=
    Nat.or_lt_two_pow hu (by decide)
  have hand : m.usage &&& complement32 MU_StaticMesh < UINT32_RANGE :=
    lt_of_le_of_lt Nat.and_le_left hu
  have hT : (m.UsageOnStaticMesh true).GetUsageFlags = m.usage ||| MU_StaticMesh := by
    simp only [FMaterial.UsageOnStaticMesh, FMaterial.GetUsageFlags, if_true]
    exact Nat.mod_eq_of_lt hor
  have hF : (m.UsageOnStaticMesh false).GetUsageFlags =
      m.usage &&& complement32 MU_StaticMesh := by
    simp only [FMaterial.UsageOnStaticMesh, FMaterial.GetUsageFlags, Bool.false_eq_true,
      if_false]
    exact Nat.mod_eq_of_lt hand
  refine ⟨hT, hF, ?_, ?_, ?_, ?_⟩
  · rw [hT, Nat.testBit_or]
    have h1 : MU_StaticMesh.testBit 0 = true := by decide
    rw [h1, Bool.or_true]
  · rw [hF, Nat.testBit_and]
    have h1 : (complement32 MU_StaticMesh).testBit 0 = false := by decide
    rw [h1, Bool.and_false]
  · intro b i hi
    cases b with
    | true =>
      rw [hT, Nat.testBit_or, testBit_MU_StaticMesh i hi, Bool.or_false]
    | false =>
      rw [hF, Nat.testBit_and]
      by_cases h32 : i < 32
      · rw [testBit_complement32_MU_StaticMesh i hi h32, Bool.and_true]
      · rw [testBit_uint32_high m.usage i hu (Nat.le_of_not_lt h32), Bool.false_and]
  · intro b
    cases b with
    | true => rw [hT]; exact hor
    | false => rw [hF]; exact hand

/-- Witness of C6 on the configured sample Material, whose usage is
`MU_StaticMesh`. -/
theorem C6_UsageOnStaticMesh_sets_or_clears_bit_witness :
    sampleConfigured.usage < UINT32_RANGE ∧
    (sampleConfigured.UsageOnStaticMesh true).GetUsageFlags = 1 ∧
    (sampleConfigured.UsageOnStaticMesh false).GetUsageFlags = 0 ∧
    (sampleConfigured.UsageOnStaticMesh false).GetUsageFlags =
      sampleConfigured.usage &&& complement32 MU_StaticMesh :=
  ⟨by decide, by decide, by decide,
    (C6_UsageOnStaticMesh_sets_or_clears_bit sampleConfigured (by decide)).2.1⟩

/-! ### Serialization of a Material reference -/

theorem sampleAssets_Faithful : sampleAssets.Faithful := by
  refine ⟨by decide, ?_⟩
  intro M M' hfind
  simp only [sampleAssets, if_true, Option.some.injEq] at hfind
  exact hfind.symm

theorem roundTripFMaterialRef_eq (A : FAssetSystem) (source destination : FMaterialRef) :
    roundTripFMaterialRef A source destination =
      some (if A.IsValid (A.referenceOf source) then
        A.FindAsset (A.referenceOf source).pathPackage (A.referenceOf source).hash
      else destination) := by
  simp only [roundTripFMaterialRef, serializeFMaterialRef, serializeFAssetReference, if_true,
    List.nil_append, Option.map_some', Option.some_bind, Bool.false_eq_true, if_false]
  split <;> rfl

/-- C8, as stated, fails: a null reference is saved and loaded into a reference
that holds the Material at address 7. The asset reference read back is not
valid, the destination is not written, and it still refers to Material 7, which
is neither the (null) original nor null. -/
theorem C8_round_trip_counterexample :
    sampleAssets.Faithful ∧
    roundTripFMaterialRef sampleAssets none (some 7) = some (some 7) ∧
    ¬ RoundTripOriginalOrNull sampleAssets none (some 7) := by
  refine ⟨sampleAssets_Faithful, by decide, ?_⟩
  rintro ⟨r, hr, hcase⟩
  have h7 : roundTripFMaterialRef sampleAssets none (some 7) = some (some 7) := by decide
  rw [h7] at hr
  cases hr
  rcases hcase with h | h <;> cases h

/-- C8, amended: with an asset system that resolves identities, saving a
Material reference and loading it back always returns, and leaves the
destination referring to the original Material, or null, or, when the asset
reference written was not valid, with the content it had before; it is the
result of `FindAsset` exactly when that reference was valid. So a destination
that was null before never ends up referring to a different Material. -/
theorem C8_round_trip_original_null_or_untouched (A : FAssetSystem) (hA : A.Faithful)
    (source destination : FMaterialRef) :
    ∃ r, roundTripFMaterialRef A source destination = some r ∧
      (r = source ∨ r = none ∨
        (A.IsValid (A.referenceOf source) = false ∧ r = destination)) ∧
      (A.IsValid (A.referenceOf source) = true →
        r = A.FindAsset (A.referenceOf source).pathPackage (A.referenceOf source).hash) ∧
      (destination = none → r = source ∨ r = none) := by
  refine ⟨_, roundTripFMaterialRef_eq A source destination, ?_, ?_, ?_⟩
  · cases hvalid : A.IsValid (A.referenceOf source) with
    | false => exact Or.inr (Or.inr ⟨rfl, by simp⟩)
    | true =>
      simp only [if_true]
      cases source with
      | none =>
        rw [FAssetSystem.referenceOf, hA.1] at hvalid
        cases hvalid
      | some M =>
        cases hfind : A.FindAsset (A.referenceOf (some M)).pathPackage
            (A.referenceOf (some M)).hash with
        | none => exact Or.inr (Or.inl rfl)
        | some M' =>
          left
          rw [hA.2 M M' hfind]
  · intro hvalid
    simp [hvalid]
  · intro hdest
    subst hdest
    cases hvalid : A.IsValid (A.referenceOf source) with
    | false => exact Or.inr (by simp)
    | true =>
      simp only [if_true]
      cases source with
      | none =>
        rw [FAssetSystem.referenceOf, hA.1] at hvalid
        cases hvalid
      | some M =>
        cases hfind : A.FindAsset (A.referenceOf (some M)).pathPackage
            (A.referenceOf (some M)).hash with
        | none => exact Or.inr rfl
        | some M' =>
          left
          rw [hA.2 M M' hfind]

/-- Witness of the amended C8: the reference to Material 3 is saved and loaded
into a reference that held Material 7; the destination then refers to
Material 3. -/
theorem C8_round_trip_original_null_or_untouched_witness :
    sampleAssets.Faithful ∧
    roundTripFMaterialRef sampleAssets (some 3) (some 7) = some (some 3) ∧
    ∃ r, roundTripFMaterialRef sampleAssets (some 3) (some 7) = some r ∧
      (r = some 3 ∨ r = none ∨
        (sampleAssets.IsValid (sampleAssets.referenceOf (some 3)) = false ∧ r = some 7)) ∧
      (sampleAssets.IsValid (sampleAssets.referenceOf (some 3)) = true →
        r = sampleAssets.FindAsset (sampleAssets.referenceOf (some 3)).pathPackage
          (sampleAssets.referenceOf (some 3)).hash) ∧
      ((some 7 : FMaterialRef) = none → r = some 3 ∨ r = none) :=
  ⟨sampleAssets_Faithful, by decide,
    C8_round_trip_original_null_or_untouched sampleAssets sampleAssets_Faithful (some 3) (some 7)⟩

/-! ### The base device -/

/-- C10: on the base device `FBaseRHI`, `CreateVertexShader`,
`CreateHullShader`, `CreateDomainShader`, `CreatePixelShader` and
`CreateGeometryShader` return a null handle for every bytecode pointer and
every size, `CreateViewport` returns null for every window handle, width and
height, and `GetImmediateContext` returns null; each of them is a total
function, so none of them fails in another way. -/
theorem C10_base_device_returns_null (rhi : FBaseRHI) (InData : Option (List Nat))
    (InSize : Nat) (InWindowHandle : Option Nat) (InWidth InHeight : Nat) :
    rhi.CreateVertexShader InData InSize = none ∧
    rhi.CreateHullShader InData InSize = none ∧
    rhi.CreateDomainShader InData InSize = none ∧
    rhi.CreatePixelShader InData InSize = none ∧
    rhi.CreateGeometryShader InData InSize = none ∧
    rhi.CreateViewport InWindowHandle InWidth InHeight = none ∧
    rhi.GetImmediateContext = none :=
  ⟨rfl, rfl, rfl, rfl, rfl, rfl, rfl⟩

/-! ### The viewport bracket and the lifecycle of the base device -/

/-- C11, as stated, fails on the base device: `BeginDrawingViewport` called
twice on viewport 2 with no `EndDrawingViewport` in between returns both times;
no fatal stop is reached. -/
theorem C11_double_begin_counterexample :
    FBaseRHI.calls FBaseRHI.mk
      [.BeginDrawingViewport (some 1) (some 2), .BeginDrawingViewport (some 1) (some 2)] =
        some FBaseRHI.mk ∧
    FBaseRHI.calls FBaseRHI.mk
      [.BeginDrawingViewport (some 1) (some 2), .BeginDrawingViewport (some 1) (some 2)] ≠
        none := by
  constructor <;> decide

/-- C11, amended: on the base device `FBaseRHI` the bodies of
`BeginDrawingViewport` and `EndDrawingViewport` are empty. Every sequence of
these calls returns and leaves the device as it was; so does
`BeginDrawingViewport` called twice on the same viewport with no
`EndDrawingViewport` in between. -/
theorem C11_base_viewport_bracket_returns (rhi : FBaseRHI) (cs : List FBaseRHICall)
    (InDeviceContext InViewport : Option Nat) :
    rhi.calls cs = some rhi ∧
    rhi.calls [.BeginDrawingViewport InDeviceContext InViewport,
      .BeginDrawingViewport InDeviceContext InViewport] = some rhi ∧
    (rhi.BeginDrawingViewport InDeviceContext InViewport).BeginDrawingViewport
      InDeviceContext InViewport = rhi := by
  refine ⟨?_, rfl, rfl⟩
  induction cs with
  | nil => rfl
  | cons c rest ih =>
    cases c <;> exact ih

/-- C12, as stated, fails on the base device: after `Init( true )` and after
`Init( false )` the accessor `IsInitialize()` returns false. -/
theorem C12_Init_counterexample :
    (FBaseRHI.mk.Init true).IsInitialize = false ∧
    (FBaseRHI.mk.Init false).IsInitialize = false ∧
    ¬ ((FBaseRHI.mk.Init true).IsInitialize = true) := by
  refine ⟨rfl, rfl, ?_⟩
  decide

/-- C12, amended: on the base device `FBaseRHI` the bodies of `Init` and
`Destroy` are empty and `IsInitialize()` returns false: before `Init`, after
`Init( isEditor )` for either value of `isEditor`, and after `Destroy`. -/
theorem C12_base_device_never_initialized (rhi : FBaseRHI) (isEditor : Bool) :
    rhi.IsInitialize = false ∧
    (rhi.Init isEditor).IsInitialize = false ∧
    rhi.Destroy.IsInitialize = false ∧
    ((rhi.Init isEditor).Destroy).IsInitialize = false ∧
    rhi.Init isEditor = rhi ∧ rhi.Destroy = rhi :=
  ⟨rfl, rfl, rfl, rfl, rfl, rfl⟩

/-! ### The assertion of `SetShader` -/

/-- C13: `SetShader` succeeds exactly when the frequency of the meta type is
below `SF_NumDrawFrequencies`. With a frequency at or above the bound the
assertion stops the call before the assignment, so no Material with a written
slot or a changed flag results; when it succeeds, the slot written is the one of
the frequency, which is in range. -/
theorem C13_SetShader_succeeds_iff_in_range {N : Nat} (m : FMaterial N) (T : FShaderMetaType) :
    ((m.SetShader T).isSome = true ↔ T.frequency < N) ∧
    (N ≤ T.frequency → m.SetShader T = none) ∧
    (∀ m', m.SetShader T = some m' →
      ∃ h : T.frequency < N,
        m'.shadersType = Function.update m.shadersType ⟨T.frequency, h⟩ (some T) ∧
        m'.isNeedUpdateShaderMap = true) := by
  refine ⟨?_, ?_, ?_⟩
  · by_cases h : T.frequency < N
    · simp [FMaterial.SetShader, h]
    · simp [FMaterial.SetShader, h]
  · intro hge
    exact dif_neg (Nat.not_lt.mpr hge)
  · intro m' hm'
    by_cases h : T.frequency < N
    · refine ⟨h, ?_⟩
      simp only [FMaterial.SetShader, h, dite_true, Option.some.injEq] at hm'
      subst hm'
      exact ⟨rfl, rfl⟩
    · rw [FMaterial.SetShader, dif_neg h] at hm'
      cases hm'

/-! ### Loading a Material reference -/

/-- C15: `operator<<` loads a Material reference from an archive whose next
record is `r`. The call returns; when `r` is not valid the destination is not
touched and keeps the Material it referred to before, and when `r` is valid the
destination becomes the result of `FindAsset( r.pathPackage, r.hash )`, null
included. Saving a null reference writes the default-constructed asset
reference. -/
theorem C15_load_touches_destination_only_if_valid (A : FAssetSystem) (InArchive : FArchive)
    (InValue : FMaterialRef) (r : FAssetReference) (rest written : List FAssetReference)
    (hLoading : InArchive.isSaving = false) (hNext : InArchive.records = r :: rest) :
    (∃ loaded, serializeFMaterialRef A InArchive InValue = some loaded ∧
      loaded.1 = { InArchive with records := rest } ∧
      (A.IsValid r = false → loaded.2 = InValue) ∧
      (A.IsValid r = true → loaded.2 = A.FindAsset r.pathPackage r.hash)) ∧
    serializeFMaterialRef A { isSaving := true, records := written } none =
      some ({ isSaving := true, records := written ++ [A.defaultReference] }, none) := by
  refine ⟨?_, rfl⟩
  cases hvalid : A.IsValid r with
  | false =>
    refine ⟨({ InArchive with records := rest }, InValue), ?_, rfl, fun _ => rfl, ?_⟩
    · simp [serializeFMaterialRef, serializeFAssetReference, hLoading, hNext, hvalid]
    · intro hcontra
      cases hcontra
  | true =>
    refine ⟨({ InArchive with records := rest }, A.FindAsset r.pathPackage r.hash), ?_, rfl,
      ?_, fun _ => rfl⟩
    · simp [serializeFMaterialRef, serializeFAssetReference, hLoading, hNext, hvalid]
    · intro hcontra
      cases hcontra

/-- Witness of C15: the record written for a null reference is loaded into a
reference that holds Material 7, and a record of Material 3 likewise. -/
theorem C15_load_touches_destination_only_if_valid_witness :
    serializeFMaterialRef sampleAssets
      { isSaving := false, records := [sampleAssets.defaultReference] } (some 7) =
        some ({ isSaving := false, records := [] }, some 7) ∧
    serializeFMaterialRef sampleAssets
      { isSaving := false, records := [sampleAssets.GetAssetReference 3] } (some 7) =
        some ({ isSaving := false, records := [] }, some 3) ∧
    ∃ loaded, serializeFMaterialRef sampleAssets
        { isSaving := false, records := [sampleAssets.defaultReference] } (some 7) =
          some loaded ∧
      loaded.1 =
        { ({ isSaving := false, records := [sampleAssets.defaultReference] } : FArchive) with
          records := [] } ∧
      (sampleAssets.IsValid sampleAssets.defaultReference = false → loaded.2 = some 7) ∧
      (sampleAssets.IsValid sampleAssets.defaultReference = true →
        loaded.2 = sampleAssets.FindAsset sampleAssets.defaultReference.pathPackage
          sampleAssets.defaultReference.hash) :=
  ⟨by decide, by decide,
    (C15_load_touches_destination_only_if_valid sampleAssets
      { isSaving := false, records := [sampleAssets.defaultReference] } (some 7)
      sampleAssets.defaultReference [] [] rfl rfl).1⟩

/-! ### World-grid shader parameters and editor constraints -/

/-- C19: `FWorldGridVertexFactory::ConstructShaderParameters` returns a
parameter object exactly when the requested frequency is `SF_Vertex`, and null
for every other frequency. -/
theorem C19_ConstructShaderParameters_only_for_vertex (SF_Vertex InShaderFrequency : Nat) :
    ((FWorldGridVertexFactory.ConstructShaderParameters SF_Vertex InShaderFrequency).isSome =
        true ↔ InShaderFrequency = SF_Vertex) ∧
    (InShaderFrequency ≠ SF_Vertex →
      FWorldGridVertexFactory.ConstructShaderParameters SF_Vertex InShaderFrequency = none) ∧
    FWorldGridVertexFactory.ConstructShaderParameters SF_Vertex SF_Vertex =
      some FVertexFactoryShaderParameters.FGeneralVertexShaderParameters := by
  refine ⟨?_, ?_, ?_⟩
  · by_cases h : InShaderFrequency = SF_Vertex
    · simp [FWorldGridVertexFactory.ConstructShaderParameters, h]
    · simp [FWorldGridVertexFactory.ConstructShaderParameters, h]
  · intro h
    simp [FWorldGridVertexFactory.ConstructShaderParameters, h]
  · simp [FWorldGridVertexFactory.ConstructShaderParameters]

theorem shiftLeftInt32_of_lt (index : Nat) (h : index < 31) :
    shiftLeftInt32 index = (2 : Int) ^ index := by
  have h31 : (2 : Nat) ^ index < 2 ^ 31 := Nat.pow_lt_pow_right (by norm_num) h
  have h32 : (2 : Nat) ^ index < UINT32_RANGE :=
    lt_trans h31 (by unfold UINT32_RANGE; norm_num)
  unfold shiftLeftInt32
  simp only [Nat.mod_eq_of_lt h32, h31, if_true]
  push_cast
  rfl

theorem FEditorConstraints.fillGridSizes_eq (remaining index : Nat) (gridSizes : List Int) :
    FEditorConstraints.fillGridSizes remaining index gridSizes =
      gridSizes ++ (List.range remaining).map fun k => shiftLeftInt32 (index + k) := by
  induction remaining generalizing index gridSizes with
  | zero => simp [FEditorConstraints.fillGridSizes]
  | succ n ih =>
    rw [FEditorConstraints.fillGridSizes, ih, List.range_succ_eq_map, List.map_cons,
      List.map_map, List.append_assoc]
    congr 1
    rw [List.singleton_append, Nat.add_zero]
    congr 1
    apply List.map_congr_left
    intro k _
    simp only [Function.comp, Nat.succ_eq_add_one]
    congr 1
    omega

theorem FEditorConstraints.gridSizes_construct (MaxGridSizes : Nat) :
    (FEditorConstraints.construct MaxGridSizes).gridSizes =
      (List.range MaxGridSizes).map shiftLeftInt32 := by
  simp only [FEditorConstraints.construct, FEditorConstraints.fillGridSizes_eq, List.nil_append,
    Nat.zero_add]

/-- C20: after the constructor of `FEditorConstraints`, with `MaxGridSizes` at
most 31 so that `1 << index` stays inside `int`, the array has `MaxGridSizes`
entries, `gridSizes[ i ]` equals `2 ^ i` for every `i` below `MaxGridSizes`, the
sizes are strictly increasing from 1, and `currentGridSize` is 4. -/
theorem C20_default_grid_sizes_are_powers_of_two (MaxGridSizes : Nat)
    (hMax : MaxGridSizes ≤ 31) :
    (FEditorConstraints.construct MaxGridSizes).currentGridSize = 4 ∧
    (FEditorConstraints.construct MaxGridSizes).gridSizes.length = MaxGridSizes ∧
    (∀ i : Nat, i < MaxGridSizes →
      (FEditorConstraints.construct MaxGridSizes).gridSizes[i]? = some ((2 : Int) ^ i)) ∧
    (FEditorConstraints.construct MaxGridSizes).gridSizes.Pairwise (fun x y => x < y) ∧
    (0 < MaxGridSizes → (FEditorConstraints.construct MaxGridSizes).gridSizes.head? = some 1) := by
  have hget : ∀ i : Nat, i < MaxGridSizes →
      (FEditorConstraints.construct MaxGridSizes).gridSizes[i]? = some ((2 : Int) ^ i) := by
    intro i hi
    rw [FEditorConstraints.gridSizes_construct, List.getElem?_map, List.getElem?_range hi,
      Option.map_some', shiftLeftInt32_of_lt i (lt_of_lt_of_le hi hMax)]
  refine ⟨rfl, ?_, hget, ?_, ?_⟩
  · rw [FEditorConstraints.gridSizes_construct, List.length_map, List.length_range]
  · rw [FEditorConstraints.gridSizes_construct, List.pairwise_map]
    refine List.Pairwise.imp_of_mem ?_ (List.pairwise_lt_range MaxGridSizes)
    intro a b ha hb hab
    rw [shiftLeftInt32_of_lt a (lt_of_lt_of_le (List.mem_range.mp ha) hMax),
      shiftLeftInt32_of_lt b (lt_of_lt_of_le (List.mem_range.mp hb) hMax)]
    exact pow_lt_pow_right₀ (by norm_num) hab
  · intro hpos
    have h0 := hget 0 hpos
    rw [List.head?_eq_getElem?, h0]
    rfl

/-- Witness of C20 with eleven grid sizes. -/
theorem C20_default_grid_sizes_are_powers_of_two_witness :
    11 ≤ 31 ∧
    (FEditorConstraints.construct 11).gridSizes =
      [1, 2, 4, 8, 16, 32, 64, 128, 256, 512, 1024] ∧
    (FEditorConstraints.construct 11).currentGridSize = 4 ∧
    (FEditorConstraints.construct 11).gridSizes.length = 11 :=
  ⟨by decide, by decide,
    (C20_default_grid_sizes_are_powers_of_two 11 (by decide)).1,
    (C20_default_grid_sizes_are_powers_of_two 11 (by decide)).2.1⟩

/-! ### Owned components of actors -/

theorem AActor.findOwnedIndex_eq_none (l : List Nat) (c index : Nat) (hc : c ∉ l) :
    AActor.findOwnedIndex l c index = none := by
  induction l generalizing index with
  | nil => rfl
  | cons x rest ih =>
    have hx : x ≠ c := fun h => hc (h ▸ List.mem_cons_self _ _)
    have hrest : c ∉ rest := fun h => hc (List.mem_cons_of_mem _ h)
    simp only [AActor.findOwnedIndex, hx, if_false]
    exact ih (index + 1) hrest

theorem AActor.findOwnedIndex_split (pre post : List Nat) (c index : Nat) (hc : c ∉ pre) :
    AActor.findOwnedIndex (pre ++ c :: post) c index = some (index + pre.length) := by
  induction pre generalizing index with
  | nil => simp [AActor.findOwnedIndex]
  | cons x rest ih =>
    have hx : x ≠ c := fun h => hc (h ▸ List.mem_cons_self _ _)
    have hrest : c ∉ rest := fun h => hc (List.mem_cons_of_mem _ h)
    rw [List.cons_append, AActor.findOwnedIndex, if_neg hx, ih (index + 1) hrest,
      List.length_cons]
    congr 1
    omega

theorem firstSplit_exists (l : List Nat) (c : Nat) (hc : c ∈ l) :
    ∃ pre post, l = pre ++ c :: post ∧ c ∉ pre := by
  induction l with
  | nil => cases hc
  | cons x rest ih =>
    by_cases hx : x = c
    · exact ⟨[], rest, by simp [hx], by simp⟩
    · have hrest : c ∈ rest := by
        rcases List.mem_cons.mp hc with h | h
        · exact absurd h.symm hx
        · exact h
      obtain ⟨pre, post, hsplit, hpre⟩ := ih hrest
      refine ⟨x :: pre, post, by simp [hsplit], ?_⟩
      intro hmem
      rcases List.mem_cons.mp hmem with h | h
      · exact hx h.symm
      · exact hpre h

theorem eraseIdx_firstSplit (pre post : List Nat) (c : Nat) :
    (pre ++ c :: post).eraseIdx pre.length = pre ++ post := by
  rw [List.eraseIdx_append_of_length_le (le_refl _), Nat.sub_self]
  rfl

theorem erase_firstSplit (pre post : List Nat) (c : Nat) (hc : c ∉ pre) :
    (pre ++ c :: post).erase c = pre ++ post := by
  rw [List.erase_append_right _ hc, List.erase_cons_head]

theorem AActor.RemoveOwnedComponent_absent (w : FActorWorld) (this c : Nat)
    (hOwner : (w.components c).owner = some this)
    (hAbsent : c ∉ (w.actors this).ownedComponents) :
    AActor.RemoveOwnedComponent w this (some c) = some w := by
  simp only [AActor.RemoveOwnedComponent, hOwner, if_true,
    AActor.findOwnedIndex_eq_none _ c 0 hAbsent]

theorem AActor.RemoveOwnedComponent_collision (w : FActorWorld) (this c : Nat)
    (pre post : List Nat) (hOwner : (w.components c).owner = some this)
    (hSplit : (w.actors this).ownedComponents = pre ++ c :: post) (hPre : c ∉ pre)
    (hCollision : (w.actors this).collisionComponent = some c) :
    AActor.RemoveOwnedComponent w this (some c) =
      some
        { actors := Function.update w.actors this
            { w.actors this with collisionComponent := none, ownedComponents := pre ++ post }
          components := Function.update w.components c { w.components c with owner := none }
          termPhysicsCalls := w.termPhysicsCalls ++ [c] } := by
  have hIdx := AActor.findOwnedIndex_split pre post c 0 hPre
  rw [Nat.zero_add] at hIdx
  simp only [AActor.RemoveOwnedComponent, hOwner, if_true, hSplit, hIdx, hCollision,
    Option.some_bind, FActorWorld.setActor, FActorWorld.SetOwner,
    FActorWorld.TermPrimitivePhysics, Function.update_same, Function.update_idem,
    eraseIdx_firstSplit]

theorem AActor.RemoveOwnedComponent_root (w : FActorWorld) (this c : Nat)
    (hOwner : (w.components c).owner = some this)
    (hPresent : c ∈ (w.actors this).ownedComponents)
    (hCollision : (w.actors this).collisionComponent ≠ some c)
    (hRoot : (w.actors this).rootComponent = some c) :
    AActor.RemoveOwnedComponent w this (some c) = none := by
  obtain ⟨pre, post, hSplit, hPre⟩ := firstSplit_exists _ c hPresent
  have hIdx := AActor.findOwnedIndex_split pre post c 0 hPre
  rw [Nat.zero_add] at hIdx
  have hCollision' : ¬ some c = (w.actors this).collisionComponent := fun h => hCollision h.symm
  simp only [AActor.RemoveOwnedComponent, hOwner, if_true, hSplit, hIdx, hCollision', hRoot,
    if_false, Option.none_bind]

theorem AActor.RemoveOwnedComponent_plain (w : FActorWorld) (this c : Nat)
    (pre post : List Nat) (hOwner : (w.components c).owner = some this)
    (hSplit : (w.actors this).ownedComponents = pre ++ c :: post) (hPre : c ∉ pre)
    (hCollision : (w.actors this).collisionComponent ≠ some c)
    (hRoot : (w.actors this).rootComponent ≠ some c) :
    AActor.RemoveOwnedComponent w this (some c) =
      some
        { actors := Function.update w.actors this
            { w.actors this with ownedComponents := pre ++ post }
          components := Function.update w.components c { w.components c with owner := none }
          termPhysicsCalls := w.termPhysicsCalls } := by
  have hIdx := AActor.findOwnedIndex_split pre post c 0 hPre
  rw [Nat.zero_add] at hIdx
  have hCollision' : ¬ some c = (w.actors this).collisionComponent := fun h => hCollision h.symm
  have hRoot' : ¬ some c = (w.actors this).rootComponent := fun h => hRoot h.symm
  simp only [AActor.RemoveOwnedComponent, hOwner, if_true, hSplit, hIdx, hCollision', hRoot',
    if_false, Option.some_bind, FActorWorld.setActor, FActorWorld.SetOwner,
    eraseIdx_firstSplit]

/-- C14: `RemoveOwnedComponent` on a component that the actor owns and lists and
that is its root component: when the component is not the collision component
the call stops on the assertion "Need implement change root component" and
removes nothing; when it is also the collision component the collision branch
is taken and the component is removed without the assertion. -/
theorem C14_remove_root_component_asserts (w : FActorWorld) (this c : Nat)
    (hOwner : (w.components c).owner = some this)
    (hPresent : c ∈ (w.actors this).ownedComponents)
    (hRoot : (w.actors this).rootComponent = some c) :
    ((w.actors this).collisionComponent ≠ some c →
      AActor.RemoveOwnedComponent w this (some c) = none) ∧
    ((w.actors this).collisionComponent = some c →
      ∃ w', AActor.RemoveOwnedComponent w this (some c) = some w' ∧
        (w'.actors this).ownedComponents = (w.actors this).ownedComponents.erase c ∧
        (w'.components c).owner = none ∧
        (w'.actors this).collisionComponent = none ∧
        w'.termPhysicsCalls = w.termPhysicsCalls ++ [c]) := by
  constructor
  · intro hCollision
    exact AActor.RemoveOwnedComponent_root w this c hOwner hPresent hCollision hRoot
  · intro hCollision
    obtain ⟨pre, post, hSplit, hPre⟩ := firstSplit_exists _ c hPresent
    refine ⟨_, AActor.RemoveOwnedComponent_collision w this c pre post hOwner hSplit hPre
      hCollision, ?_, ?_, ?_, rfl⟩
    · simp only [Function.update_same, hSplit, erase_firstSplit pre post c hPre]
    · simp only [Function.update_same]
    · simp only [Function.update_same]

/-- Witness of C14 in the sample memory: component 10 is the root of actor 0 and
not its collision component; component 20 is root and collision component of
actor 1. -/
theorem C14_remove_root_component_asserts_witness :
    AActor.RemoveOwnedComponent sampleWorld 0 (some 10) = none ∧
    (AActor.RemoveOwnedComponent sampleWorld 1 (some 20)).isSome = true ∧
    ∃ w', AActor.RemoveOwnedComponent sampleWorld 1 (some 20) = some w' ∧
      (w'.actors 1).ownedComponents = (sampleWorld.actors 1).ownedComponents.erase 20 ∧
      (w'.components 20).owner = none ∧
      (w'.actors 1).collisionComponent = none ∧
      w'.termPhysicsCalls = sampleWorld.termPhysicsCalls ++ [20] :=
  ⟨(C14_remove_root_component_asserts sampleWorld 0 10 (by decide) (by decide)
      (by decide)).1 (by decide),
    by decide,
    (C14_remove_root_component_asserts sampleWorld 1 20 (by decide) (by decide)
      (by decide)).2 (by decide)⟩

/-- C17: `RemoveOwnedComponent( c )` for a component whose owner is the actor.
When `c` is in `ownedComponents` and is not the root component, exactly its
first occurrence is erased and the other components keep their order (the
list is one shorter), the owner of `c` becomes null, no other component and no
other actor changes, and, if `c` was the collision component,
`TermPrimitivePhysics` is called on it and `collisionComponent` becomes null
(otherwise both are as before). When `c` is not in the list, nothing changes. -/
theorem C17_RemoveOwnedComponent_erases_first_occurrence (w : FActorWorld) (this c : Nat)
    (hOwner : (w.components c).owner = some this) :
    (c ∈ (w.actors this).ownedComponents → (w.actors this).rootComponent ≠ some c →
      ∃ w' pre post, AActor.RemoveOwnedComponent w this (some c) = some w' ∧
        (w.actors this).ownedComponents = pre ++ c :: post ∧ c ∉ pre ∧
        (w'.actors this).ownedComponents = pre ++ post ∧
        (w'.actors this).ownedComponents.length + 1 = (w.actors this).ownedComponents.length ∧
        (w'.components c).owner = none ∧
        (∀ c', c' ≠ c → w'.components c' = w.components c') ∧
        (∀ b, b ≠ this → w'.actors b = w.actors b) ∧
        (w'.actors this).rootComponent = (w.actors this).rootComponent ∧
        ((w.actors this).collisionComponent = some c →
          w'.termPhysicsCalls = w.termPhysicsCalls ++ [c] ∧
          (w'.actors this).collisionComponent = none) ∧
        ((w.actors this).collisionComponent ≠ some c →
          w'.termPhysicsCalls = w.termPhysicsCalls ∧
          (w'.actors this).collisionComponent = (w.actors this).collisionComponent)) ∧
    (c ∉ (w.actors this).ownedComponents →
      AActor.RemoveOwnedComponent w this (some c) = some w) := by
  constructor
  · intro hPresent hRoot
    obtain ⟨pre, post, hSplit, hPre⟩ := firstSplit_exists _ c hPresent
    by_cases hCollision : (w.actors this).collisionComponent = some c
    · refine ⟨_, pre, post,
        AActor.RemoveOwnedComponent_collision w this c pre post hOwner hSplit hPre hCollision,
        hSplit, hPre, ?_, ?_, ?_, ?_, ?_, ?_, ?_, ?_⟩
      · simp only [Function.update_same]
      · simp only [Function.update_same, hSplit, List.length_append, List.length_cons]
        omega
      · simp only [Function.update_same]
      · intro c' hc'
        simp only [Function.update_noteq hc']
      · intro b hb
        simp only [Function.update_noteq hb]
      · simp only [Function.update_same]
      · intro _
        exact ⟨rfl, by simp only [Function.update_same]⟩
      · intro hne
        exact absurd hCollision hne
    · refine ⟨_, pre, post,
        AActor.RemoveOwnedComponent_plain w this c pre post hOwner hSplit hPre hCollision hRoot,
        hSplit, hPre, ?_, ?_, ?_, ?_, ?_, ?_, ?_, ?_⟩
      · simp only [Function.update_same]
      · simp only [Function.update_same, hSplit, List.length_append, List.length_cons]
        omega
      · simp only [Function.update_same]
      · intro c' hc'
        simp only [Function.update_noteq hc']
      · intro b hb
        simp only [Function.update_noteq hb]
      · simp only [Function.update_same]
      · intro h
        exact absurd h hCollision
      · intro _
        exact ⟨rfl, by simp only [Function.update_same]⟩
  · intro hAbsent
    exact AActor.RemoveOwnedComponent_absent w this c hOwner hAbsent

/-- Witness of C17 in the sample memory: actor 0 removes component 11, its
collision component, and component 12. -/
theorem C17_RemoveOwnedComponent_erases_first_occurrence_witness :
    (AActor.RemoveOwnedComponent sampleWorld 0 (some 11)).map
        (fun w' => ((w'.actors 0).ownedComponents, (w'.actors 0).collisionComponent,
          (w'.components 11).owner, w'.termPhysicsCalls)) =
      some ([10, 12], none, none, [11]) ∧
    (AActor.RemoveOwnedComponent sampleWorld 0 (some 12)).map
        (fun w' => ((w'.actors 0).ownedComponents, (w'.actors 0).collisionComponent,
          (w'.components 12).owner, w'.termPhysicsCalls)) =
      some ([10, 11], some 11, none, []) ∧
    ∃ w' pre post, AActor.RemoveOwnedComponent sampleWorld 0 (some 11) = some w' ∧
      (sampleWorld.actors 0).ownedComponents = pre ++ 11 :: post ∧ 11 ∉ pre ∧
      (w'.actors 0).ownedComponents = pre ++ post ∧
      (w'.actors 0).ownedComponents.length + 1 = (sampleWorld.actors 0).ownedComponents.length ∧
      (w'.components 11).owner = none ∧
      (∀ c', c' ≠ 11 → w'.components c' = sampleWorld.components c') ∧
      (∀ b, b ≠ 0 → w'.actors b = sampleWorld.actors b) ∧
      (w'.actors 0).rootComponent = (sampleWorld.actors 0).rootComponent ∧
      ((sampleWorld.actors 0).collisionComponent = some 11 →
        w'.termPhysicsCalls = sampleWorld.termPhysicsCalls ++ [11] ∧
        (w'.actors 0).collisionComponent = none) ∧
      ((sampleWorld.actors 0).collisionComponent ≠ some 11 →
        w'.termPhysicsCalls = sampleWorld.termPhysicsCalls ∧
        (w'.actors 0).collisionComponent = (sampleWorld.actors 0).collisionComponent) :=
  ⟨by decide, by decide,
    (C17_RemoveOwnedComponent_erases_first_occurrence sampleWorld 0 11 (by decide)).1
      (by decide) (by decide)⟩

theorem AActor.AddOwnedComponent_unowned (w : FActorWorld) (this c : Nat)
    (hOwner : (w.components c).owner = none) :
    AActor.AddOwnedComponent w this (some c) =
      some
        { actors := Function.update w.actors this
            { w.actors this with
              ownedComponents := (w.actors this).ownedComponents ++ [c] }
          components := Function.update w.components c
            { w.components c with owner := some this }
          termPhysicsCalls := w.termPhysicsCalls } := by
  simp only [AActor.AddOwnedComponent, hOwner, if_false, Option.some_bind,
    FActorWorld.setActor, FActorWorld.SetOwner, reduceCtorEq]

/-- C18: `CreateComponent` with a class whose object is an actor component that
its constructor leaves without owner and without attachment. The call returns
the new component; it has the given name and this actor as owner and is the
last element of `ownedComponents`. When it is a scene component and the actor
has no root component it becomes the root and is attached to nothing; when a
root exists it is attached to that root and the root is unchanged; when it is
not a scene component the root is unchanged. -/
theorem C18_CreateComponent_root_rule (w : FActorWorld) (this : Nat) (cls : LClass)
    (InName : String) (hClass : cls.CreateObject.isActorComponent = true)
    (hOwner : cls.CreateObject.component.owner = none)
    (hDetached : cls.CreateObject.component.attachParent = none) :
    ∃ w', AActor.CreateComponent w this (some cls) InName =
        some (w', cls.CreateObject.address) ∧
      (w'.components cls.CreateObject.address).name = InName ∧
      (w'.components cls.CreateObject.address).owner = some this ∧
      (w'.actors this).ownedComponents =
        (w.actors this).ownedComponents ++ [cls.CreateObject.address] ∧
      (w'.actors this).ownedComponents.getLast? = some cls.CreateObject.address ∧
      (cls.CreateObject.component.isSceneComponent = true →
        (w.actors this).rootComponent = none →
          (w'.actors this).rootComponent = some cls.CreateObject.address ∧
          (w'.components cls.CreateObject.address).attachParent = none) ∧
      (cls.CreateObject.component.isSceneComponent = true →
        ∀ root, (w.actors this).rootComponent = some root →
          (w'.actors this).rootComponent = some root ∧
          (w'.components cls.CreateObject.address).attachParent = some root) ∧
      (cls.CreateObject.component.isSceneComponent = false →
        (w'.actors this).rootComponent = (w.actors this).rootComponent ∧
        (w'.components cls.CreateObject.address).attachParent = none) := by
  have hAdd : ∀ w₂ : FActorWorld, (w₂.components cls.CreateObject.address).owner = none →
      ∃ w', (AActor.AddOwnedComponent w₂ this (some cls.CreateObject.address)).map
          (fun w₃ => (w₃, cls.CreateObject.address)) = some (w', cls.CreateObject.address) ∧
        (w'.components cls.CreateObject.address).name =
          (w₂.components cls.CreateObject.address).name ∧
        (w'.components cls.CreateObject.address).attachParent =
          (w₂.components cls.CreateObject.address).attachParent ∧
        (w'.components cls.CreateObject.address).owner = some this ∧
        (w'.actors this).ownedComponents =
          (w₂.actors this).ownedComponents ++ [cls.CreateObject.address] ∧
        (w'.actors this).rootComponent = (w₂.actors this).rootComponent := by
    intro w₂ h₂
    rw [AActor.AddOwnedComponent_unowned w₂ this _ h₂]
    refine ⟨_, rfl, ?_, ?_, ?_, ?_, ?_⟩ <;> simp only [Function.update_same]
  cases hScene : cls.CreateObject.component.isSceneComponent with
  | false =>
    obtain ⟨w', h1, h2, h3, h4, h5, h6⟩ := hAdd
      (FActorWorld.SetName
        { w with components :=
            Function.update w.components cls.CreateObject.address cls.CreateObject.component }
        cls.CreateObject.address InName)
      (by simp [FActorWorld.SetName, hOwner])
    refine ⟨w', ?_, ?_, h4, ?_, ?_, ?_, ?_, ?_⟩
    · simp only [AActor.CreateComponent, hClass, if_true, hScene, Bool.false_eq_true,
        and_false, if_false]
      exact h1
    · rw [h2]; simp [FActorWorld.SetName]
    · rw [h5]; rfl
    · rw [h5]; simp
    · intro h; cases h
    · intro h; cases h
    · intro _
      refine ⟨by rw [h6]; rfl, ?_⟩
      rw [h3]; simp [FActorWorld.SetName, hDetached]
  | true =>
    cases hRootW : (w.actors this).rootComponent with
    | none =>
      obtain ⟨w', h1, h2, h3, h4, h5, h6⟩ := hAdd
        (FActorWorld.SetName
          (FActorWorld.setActor
            { w with components :=
                (Function.update w.components cls.CreateObject.address
                  cls.CreateObject.component) }
            this { w.actors this with rootComponent := some cls.CreateObject.address })
          cls.CreateObject.address InName)
        (by simp [FActorWorld.SetName, FActorWorld.setActor, hOwner])
      refine ⟨w', ?_, ?_, h4, ?_, ?_, ?_, ?_, ?_⟩
      · simp only [AActor.CreateComponent, hClass, if_true, hScene, hRootW, and_self]
        exact h1
      · rw [h2]; simp [FActorWorld.SetName]
      · rw [h5]; simp [FActorWorld.SetName, FActorWorld.setActor]
      · rw [h5]; simp
      · intro _ _
        refine ⟨by rw [h6]; simp [FActorWorld.SetName, FActorWorld.setActor], ?_⟩
        rw [h3]; simp [FActorWorld.SetName, FActorWorld.setActor, hDetached]
      · intro _ root hroot; cases hroot
      · intro h; cases h
    | some root₀ =>
      obtain ⟨w', h1, h2, h3, h4, h5, h6⟩ := hAdd
        (FActorWorld.SetName
          (FActorWorld.SetupAttachment
            { w with components :=
                (Function.update w.components cls.CreateObject.address
                  cls.CreateObject.component) }
            cls.CreateObject.address (some root₀))
          cls.CreateObject.address InName)
        (by simp [FActorWorld.SetName, FActorWorld.SetupAttachment, hOwner])
      refine ⟨w', ?_, ?_, h4, ?_, ?_, ?_, ?_, ?_⟩
      · simp only [AActor.CreateComponent, hClass, if_true, hScene, hRootW, and_true,
          reduceCtorEq, if_false, ne_eq, not_false_eq_true]
        exact h1
      · rw [h2]; simp [FActorWorld.SetName]
      · rw [h5]; simp [FActorWorld.SetName, FActorWorld.SetupAttachment]
      · rw [h5]; simp
      · intro _ hnone; cases hnone
      · intro _ root hroot
        cases hroot
        refine ⟨by rw [h6]; simp [FActorWorld.SetName, FActorWorld.SetupAttachment, hRootW],
          ?_⟩
        rw [h3]; simp [FActorWorld.SetName, FActorWorld.SetupAttachment]
      · intro h; cases h

/-! ### The ownership invariant -/

/-- The ownership invariant in the form used by the proofs: every listed
component has the listing actor as owner, and no list repeats a component. -/
theorem OwnershipInvariant_iff (w : FActorWorld) :
    OwnershipInvariant w ↔
      (∀ a c : Nat, c ∈ (w.actors a).ownedComponents → (w.components c).owner = some a) ∧
      ∀ a : Nat, (w.actors a).ownedComponents.Nodup := by
  constructor
  · intro hInv
    refine ⟨fun a c hc => (hInv a c hc).1, fun a => ?_⟩
    rw [List.nodup_iff_count_le_one]
    intro c
    by_cases hc : c ∈ (w.actors a).ownedComponents
    · exact le_of_eq (hInv a c hc).2.1
    · rw [List.count_eq_zero.mpr hc]
      exact Nat.zero_le _
  · rintro ⟨hOwner, hNodup⟩ a c hc
    refine ⟨hOwner a c hc, List.count_eq_one_of_mem (hNodup a) hc, ?_⟩
    intro b hb hcb
    have h1 := hOwner a c hc
    have h2 := hOwner b c hcb
    rw [h1] at h2
    exact hb (Option.some.inj h2).symm

theorem AActor.RemoveOwnedComponent_some (w w' : FActorWorld) (a c : Nat)
    (h : AActor.RemoveOwnedComponent w a (some c) = some w') :
    (w.components c).owner = some a ∧
    ((c ∉ (w.actors a).ownedComponents ∧ w' = w) ∨
      ∃ pre post, (w.actors a).ownedComponents = pre ++ c :: post ∧ c ∉ pre ∧
        (∀ b, b ≠ a → w'.actors b = w.actors b) ∧
        (w'.actors a).ownedComponents = pre ++ post ∧
        w'.components = Function.update w.components c { w.components c with owner := none }) := by
  by_cases hOwner : (w.components c).owner = some a
  · refine ⟨hOwner, ?_⟩
    by_cases hPresent : c ∈ (w.actors a).ownedComponents
    · right
      obtain ⟨pre, post, hSplit, hPre⟩ := firstSplit_exists _ c hPresent
      refine ⟨pre, post, hSplit, hPre, ?_⟩
      by_cases hCollision : (w.actors a).collisionComponent = some c
      · rw [AActor.RemoveOwnedComponent_collision w a c pre post hOwner hSplit hPre
          hCollision] at h
        cases h
        refine ⟨fun b hb => ?_, ?_, rfl⟩
        · simp only [Function.update_noteq hb]
        · simp only [Function.update_same]
      · by_cases hRoot : (w.actors a).rootComponent = some c
        · rw [AActor.RemoveOwnedComponent_root w a c hOwner hPresent hCollision hRoot] at h
          cases h
        · rw [AActor.RemoveOwnedComponent_plain w a c pre post hOwner hSplit hPre hCollision
            hRoot] at h
          cases h
          refine ⟨fun b hb => ?_, ?_, rfl⟩
          · simp only [Function.update_noteq hb]
          · simp only [Function.update_same]
    · left
      rw [AActor.RemoveOwnedComponent_absent w a c hOwner hPresent] at h
      cases h
      exact ⟨hPresent, rfl⟩
  · simp only [AActor.RemoveOwnedComponent, hOwner, if_false] at h
    cases h

theorem AActor.RemoveOwnedComponent_invariant (w w' : FActorWorld) (a c : Nat)
    (hInv : OwnershipInvariant w)
    (h : AActor.RemoveOwnedComponent w a (some c) = some w') :
    OwnershipInvariant w' ∧ (∀ b, c ∈ (w'.actors b).ownedComponents → False) ∧
    (∀ b, b ≠ a → w'.actors b = w.actors b) := by
  obtain ⟨hOwn, hNodup⟩ := (OwnershipInvariant_iff w).mp hInv
  obtain ⟨hOwner, hCase⟩ := AActor.RemoveOwnedComponent_some w w' a c h
  rcases hCase with ⟨hAbsent, hEq⟩ | ⟨pre, post, hSplit, hPre, hOthers, hList, hComp⟩
  · subst hEq
    refine ⟨hInv, ?_, fun _ _ => rfl⟩
    intro b hb
    have hb' := hOwn b c hb
    rw [hOwner] at hb'
    cases hb'
    exact hAbsent hb
  · have hNodupA := hNodup a
    rw [hSplit] at hNodupA
    have hNotPost : c ∉ post := by
      intro hmem
      have := (List.nodup_append.mp hNodupA).2.1
      exact (List.nodup_cons.mp this).1 hmem
    have hSub : ∀ x, x ∈ pre ++ post → x ∈ (w.actors a).ownedComponents ∧ x ≠ c := by
      intro x hx
      rw [hSplit]
      rcases List.mem_append.mp hx with hx | hx
      · exact ⟨List.mem_append_left _ hx, fun hEq => hPre (hEq ▸ hx)⟩
      · exact ⟨List.mem_append_right _ (List.mem_cons_of_mem _ hx),
          fun hEq => hNotPost (hEq ▸ hx)⟩
    have hMem : ∀ b x, x ∈ (w'.actors b).ownedComponents →
        x ∈ (w.actors b).ownedComponents ∧ x ≠ c := by
      intro b x hx
      by_cases hb : b = a
      · subst hb
        rw [hList] at hx
        exact hSub x hx
      · rw [hOthers b hb] at hx
        refine ⟨hx, fun hEq => ?_⟩
        subst hEq
        have := hOwn b x hx
        rw [hOwner] at this
        exact hb (Option.some.inj this).symm
    refine ⟨(OwnershipInvariant_iff w').mpr ⟨?_, ?_⟩, ?_, hOthers⟩
    · intro b x hx
      obtain ⟨hx₁, hx₂⟩ := hMem b x hx
      rw [hComp, Function.update_noteq hx₂]
      exact hOwn b x hx₁
    · intro b
      by_cases hb : b = a
      · subst hb
        rw [hList]
        have h1 := (List.nodup_append.mp hNodupA)
        refine List.nodup_append.mpr ⟨h1.1, (List.nodup_cons.mp h1.2.1).2, ?_⟩
        intro x hx₁ hx₂
        exact h1.2.2 hx₁ (List.mem_cons_of_mem _ hx₂)
      · rw [hOthers b hb]
        exact hNodup b
    · intro b hb
      exact (hMem b c hb).2 rfl

theorem AActor.AddOwnedComponent_some (w w' : FActorWorld) (a c : Nat)
    (h : AActor.AddOwnedComponent w a (some c) = some w') :
    (w.components c).owner ≠ some a ∧
    ∃ w₁ : FActorWorld,
      (((w.components c).owner = none ∧ w₁ = w) ∨
        ∃ b, (w.components c).owner = some b ∧
          AActor.RemoveOwnedComponent w b (some c) = some w₁) ∧
      w' =
        { actors := Function.update w₁.actors a
            { w₁.actors a with ownedComponents := (w₁.actors a).ownedComponents ++ [c] }
          components := Function.update w₁.components c
            { w₁.components c with owner := some a }
          termPhysicsCalls := w₁.termPhysicsCalls } := by
  by_cases hOwner : (w.components c).owner = some a
  · simp only [AActor.AddOwnedComponent, hOwner, if_true] at h
    cases h
  · refine ⟨hOwner, ?_⟩
    cases hO : (w.components c).owner with
    | none =>
      rw [AActor.AddOwnedComponent_unowned w a c hO] at h
      cases h
      exact ⟨w, Or.inl ⟨rfl, rfl⟩, rfl⟩
    | some b =>
      have hba : b ≠ a := fun hEq => hOwner (by rw [hO, hEq])
      simp only [AActor.AddOwnedComponent, hO, Option.some.injEq, hba, if_false] at h
      cases hR : AActor.RemoveOwnedComponent w b (some c) with
      | none =>
        rw [hR] at h
        cases h
      | some w₁ =>
        rw [hR] at h
        simp only [Option.some_bind, FActorWorld.setActor, FActorWorld.SetOwner,
          Option.some.injEq] at h
        exact ⟨w₁, Or.inr ⟨b, rfl, hR⟩, h.symm⟩

theorem AActor.AddOwnedComponent_invariant (w w' : FActorWorld) (a c : Nat)
    (hInv : OwnershipInvariant w) (h : AActor.AddOwnedComponent w a (some c) = some w') :
    OwnershipInvariant w' ∧
    (∀ b, (w.components c).owner = some b → c ∉ (w'.actors b).ownedComponents) ∧
    (w'.actors a).ownedComponents = (w.actors a).ownedComponents ++ [c] ∧
    (w'.components c).owner = some a := by
  obtain ⟨hNotA, w₁, hCase, hEq⟩ := AActor.AddOwnedComponent_some w w' a c h
  have hMid : OwnershipInvariant w₁ ∧ (∀ b, c ∈ (w₁.actors b).ownedComponents → False) ∧
      w₁.actors a = w.actors a := by
    rcases hCase with ⟨hNone, hw⟩ | ⟨b, hSome, hRemove⟩
    · subst hw
      refine ⟨hInv, ?_, rfl⟩
      intro b hb
      have := (hInv b c hb).1
      rw [hNone] at this
      cases this
    · have hba : b ≠ a := fun hEq' => hNotA (by rw [hSome, hEq'])
      obtain ⟨h1, h2, h3⟩ := AActor.RemoveOwnedComponent_invariant w w₁ b c hInv hRemove
      exact ⟨h1, h2, h3 a (Ne.symm hba)⟩
  obtain ⟨hInv₁, hNotListed, hActorA⟩ := hMid
  obtain ⟨hOwn₁, hNodup₁⟩ := (OwnershipInvariant_iff w₁).mp hInv₁
  subst hEq
  refine ⟨(OwnershipInvariant_iff _).mpr ⟨?_, ?_⟩, ?_, ?_, ?_⟩
  · intro b x hx
    by_cases hb : b = a
    · subst hb
      simp only [Function.update_same] at hx
      rcases List.mem_append.mp hx with hx | hx
      · have hxc : x ≠ c := fun hEq' => hNotListed b (hEq' ▸ hx)
        simp only [Function.update_noteq hxc]
        exact hOwn₁ b x hx
      · have hxc : x = c := List.mem_singleton.mp hx
        subst hxc
        simp only [Function.update_same]
    · simp only [Function.update_noteq hb] at hx
      have hxc : x ≠ c := fun hEq' => hNotListed b (hEq' ▸ hx)
      simp only [Function.update_noteq hxc]
      exact hOwn₁ b x hx
  · intro b
    by_cases hb : b = a
    · subst hb
      simp only [Function.update_same]
      refine List.nodup_append.mpr ⟨hNodup₁ b, List.nodup_singleton c, ?_⟩
      intro x hx₁ hx₂
      have hxc : x = c := List.mem_singleton.mp hx₂
      exact hNotListed b (hxc ▸ hx₁)
    · simp only [Function.update_noteq hb]
      exact hNodup₁ b
  · intro b hb hmem
    have hba : b ≠ a := fun hEq' => hNotA (by rw [hb, hEq'])
    simp only [Function.update_noteq hba] at hmem
    exact hNotListed b hmem
  · simp only [Function.update_same, hActorA]
  · simp only [Function.update_same]

theorem AActor.resetLoop_actors (collisionComponent : Option Nat) (l : List Nat)
    (w : FActorWorld) : (AActor.resetLoop collisionComponent w l).actors = w.actors := by
  induction l generalizing w with
  | nil => rfl
  | cons x rest ih =>
    rw [AActor.resetLoop, ih]
    split <;> rfl

theorem AActor.resetLoop_components_of_not_mem (collisionComponent : Option Nat) (l : List Nat)
    (w : FActorWorld) (x : Nat) (hx : x ∉ l) :
    (AActor.resetLoop collisionComponent w l).components x = w.components x := by
  induction l generalizing w with
  | nil => rfl
  | cons y rest ih =>
    have hxy : x ≠ y := fun hEq => hx (hEq ▸ List.mem_cons_self _ _)
    have hrest : x ∉ rest := fun hmem => hx (List.mem_cons_of_mem _ hmem)
    rw [AActor.resetLoop, ih _ hrest]
    split <;> simp only [FActorWorld.SetOwner, FActorWorld.TermPrimitivePhysics,
      Function.update_noteq hxy]

theorem AActor.ResetOwnedComponents_invariant (w : FActorWorld) (a : Nat)
    (hInv : OwnershipInvariant w) : OwnershipInvariant (AActor.ResetOwnedComponents w a) := by
  obtain ⟨hOwn, hNodup⟩ := (OwnershipInvariant_iff w).mp hInv
  have hActors : ∀ b, b ≠ a → (AActor.ResetOwnedComponents w a).actors b = w.actors b := by
    intro b hb
    simp only [AActor.ResetOwnedComponents, FActorWorld.setActor, Function.update_noteq hb,
      AActor.resetLoop_actors]
  have hActorA : ((AActor.ResetOwnedComponents w a).actors a).ownedComponents = [] := by
    simp only [AActor.ResetOwnedComponents, FActorWorld.setActor, Function.update_same]
  have hComp : ∀ x, x ∉ (w.actors a).ownedComponents →
      (AActor.ResetOwnedComponents w a).components x = w.components x := by
    intro x hx
    simp only [AActor.ResetOwnedComponents, FActorWorld.setActor]
    exact AActor.resetLoop_components_of_not_mem _ _ w x hx
  refine (OwnershipInvariant_iff _).mpr ⟨?_, ?_⟩
  · intro b x hx
    by_cases hb : b = a
    · subst hb
      rw [hActorA] at hx
      cases hx
    · rw [hActors b hb] at hx
      have hxa : x ∉ (w.actors a).ownedComponents := by
        intro hmem
        have h1 := hOwn a x hmem
        rw [hOwn b x hx] at h1
        exact hb (Option.some.inj h1)
      rw [hComp x hxa]
      exact hOwn b x hx
  · intro b
    by_cases hb : b = a
    · subst hb
      rw [hActorA]
      exact List.nodup_nil
    · rw [hActors b hb]
      exact hNodup b

/-- C16: the ownership invariant (a component listed in an actor's
`ownedComponents` has that actor as owner, occurs there once, and is listed by
no other actor) is kept by every `AddOwnedComponent`, `RemoveOwnedComponent` and
`ResetOwnedComponents` call that does not stop on an assertion. After
`AddOwnedComponent` of a component owned by another actor, that actor's list no
longer holds the component, the new actor's list is its old list with the
component appended, and the component's owner is the new actor. -/
theorem C16_ownership_invariant_preserved (w w' : FActorWorld) (call : AActorOwnershipCall)
    (hInv : OwnershipInvariant w) (hCall : AActor.ownershipCall w call = some w') :
    OwnershipInvariant w' ∧
    ∀ a b c : Nat, call = .AddOwnedComponent a (some c) → (w.components c).owner = some b →
      c ∉ (w'.actors b).ownedComponents ∧
      (w'.actors a).ownedComponents = (w.actors a).ownedComponents ++ [c] ∧
      (w'.components c).owner = some a := by
  cases call with
  | AddOwnedComponent this InComponent =>
    cases InComponent with
    | none => cases hCall
    | some c =>
      obtain ⟨h1, h2, h3, h4⟩ := AActor.AddOwnedComponent_invariant w w' this c hInv hCall
      refine ⟨h1, ?_⟩
      intro a b c' hEq hOwner
      cases hEq
      exact ⟨h2 b hOwner, h3, h4⟩
  | RemoveOwnedComponent this InComponent =>
    cases InComponent with
    | none => cases hCall
    | some c =>
      refine ⟨(AActor.RemoveOwnedComponent_invariant w w' this c hInv hCall).1, ?_⟩
      intro a b c' hEq
      cases hEq
  | ResetOwnedComponents this =>
    simp only [AActor.ownershipCall, Option.some.injEq] at hCall
    subst hCall
    refine ⟨AActor.ResetOwnedComponents_invariant w this hInv, ?_⟩
    intro a b c' hEq
    cases hEq

theorem sampleWorld_OwnershipInvariant : OwnershipInvariant sampleWorld := by
  refine (OwnershipInvariant_iff _).mpr ⟨?_, ?_⟩
  · intro a c hc
    by_cases h0 : a = 0
    · subst h0
      simp only [sampleWorld, if_true, List.mem_cons, List.mem_singleton, List.mem_nil_iff,
        or_false] at hc
      rcases hc with h | h | h <;> subst h <;> decide
    · by_cases h1 : a = 1
      · subst h1
        simp only [sampleWorld, if_true, List.mem_singleton, one_ne_zero, if_false] at hc
        subst hc
        decide
      · simp [sampleWorld, h0, h1] at hc
  · intro a
    by_cases h0 : a = 0
    · subst h0
      decide
    · by_cases h1 : a = 1
      · subst h1
        decide
      · simp [sampleWorld, h0, h1]

/-- Witness of C16 in the sample memory: actor 1 adds component 12, which
actor 0 owns. -/
theorem C16_ownership_invariant_preserved_witness :
    OwnershipInvariant sampleWorld ∧
    (AActor.ownershipCall sampleWorld (.AddOwnedComponent 1 (some 12))).map
        (fun w' => ((w'.actors 0).ownedComponents, (w'.actors 1).ownedComponents,
          (w'.components 12).owner)) = some ([10, 11], [20, 12], some 1) ∧
    ∃ w', AActor.ownershipCall sampleWorld (.AddOwnedComponent 1 (some 12)) = some w' ∧
      OwnershipInvariant w' ∧
      12 ∉ (w'.actors 0).ownedComponents ∧
      (w'.actors 1).ownedComponents = (sampleWorld.actors 1).ownedComponents ++ [12] ∧
      (w'.components 12).owner = some 1 :=
  ⟨sampleWorld_OwnershipInvariant, by decide,
    (Option.isSome_iff_exists.mp
      (by decide :
        (AActor.ownershipCall sampleWorld (.AddOwnedComponent 1 (some 12))).isSome = true)).imp
      fun w' hCall =>
        ⟨hCall,
          (C16_ownership_invariant_preserved sampleWorld w' (.AddOwnedComponent 1 (some 12))
            sampleWorld_OwnershipInvariant hCall).1,
          (C16_ownership_invariant_preserved sampleWorld w' (.AddOwnedComponent 1 (some 12))
            sampleWorld_OwnershipInvariant hCall).2 1 0 12 rfl (by decide)⟩⟩

/-- Witness of C18 in the sample memory: actor 0, which has a root, and actor 2,
which has none, each create a scene component named `Mesh`. -/
theorem C18_CreateComponent_root_rule_witness :
    (AActor.CreateComponent sampleWorld 0 (some sampleSceneClass) "Mesh").map
        (fun r => (r.2, (r.1.actors 0).ownedComponents, (r.1.actors 0).rootComponent,
          (r.1.components 30).attachParent, (r.1.components 30).name,
          (r.1.components 30).owner)) =
      some (30, [10, 11, 12, 30], some 10, some 10, "Mesh", some 0) ∧
    (AActor.CreateComponent sampleWorld 2 (some sampleSceneClass) "Mesh").map
        (fun r => (r.2, (r.1.actors 2).ownedComponents, (r.1.actors 2).rootComponent,
          (r.1.components 30).attachParent, (r.1.components 30).name,
          (r.1.components 30).owner)) =
      some (30, [30], some 30, none, "Mesh", some 2) ∧
    ∃ w', AActor.CreateComponent sampleWorld 2 (some sampleSceneClass) "Mesh" =
        some (w', sampleSceneClass.CreateObject.address) ∧
      (w'.components sampleSceneClass.CreateObject.address).name = "Mesh" ∧
      (w'.components sampleSceneClass.CreateObject.address).owner = some 2 ∧
      (w'.actors 2).ownedComponents =
        (sampleWorld.actors 2).ownedComponents ++ [sampleSceneClass.CreateObject.address] ∧
      (w'.actors 2).ownedComponents.getLast? = some sampleSceneClass.CreateObject.address ∧
      (sampleSceneClass.CreateObject.component.isSceneComponent = true →
        (sampleWorld.actors 2).rootComponent = none →
          (w'.actors 2).rootComponent = some sampleSceneClass.CreateObject.address ∧
          (w'.components sampleSceneClass.CreateObject.address).attachParent = none) ∧
      (sampleSceneClass.CreateObject.component.isSceneComponent = true →
        ∀ root, (sampleWorld.actors 2).rootComponent = some root →
          (w'.actors 2).rootComponent = some root ∧
          (w'.components sampleSceneClass.CreateObject.address).attachParent = some root) ∧
      (sampleSceneClass.CreateObject.component.isSceneComponent = false →
        (w'.actors 2).rootComponent = (sampleWorld.actors 2).rootComponent ∧
        (w'.components sampleSceneClass.CreateObject.address).attachParent = none) :=
  ⟨rfl, rfl,
    C18_CreateComponent_root_rule sampleWorld 2 sampleSceneClass "Mesh" rfl rfl rfl⟩

end LifeEngine
